import Mathlib

/-!
Verification of the OOS (out-of-stock) reconciliation and analytics core of
the oos-webapp backend.

The embedding models:
  * JSON values (the raw order payloads) as an inductive type `Json`,
    together with the Python dictionary/list primitives the code uses
    (`dict.get`, truthiness, `in`, iteration, `str(...)`, `float(...)`,
    `int(...)`), each returning `Except PyErr _` exactly where the Python
    expression can raise;
  * `core/bigquery_service.py` `BigQueryService.sync_raw_order_data`:
    per-source exception tables, the staging-row extraction loop, and the
    BigQuery MERGE statement (insert / update / resolve, including the
    multi-source-row match error and the two malformed-query paths);
  * `core/analytics_service.py`: `get_shipbob_oos_skus`,
    `get_stord_oos_skus`, and the per-order aggregation loop of
    `AnalyticsService.get_full_analytics`.

Idealizations (noted where used): rational numbers stand for Python floats
and for `datetime` arithmetic (exact instead of binary floating point /
microsecond precision); `str(...)` of lists and dicts is approximated by
placeholder text (never exercised by any theorem); Python cross-type
equalities such as `1 == True` are not identified.
-/

namespace OOS

/-- JSON values, as produced by `json.loads` in the Python code.  Numbers are
modeled as rationals (Python ints and floats together); objects keep their
key insertion order, as Python dicts do. -/
inductive Json where
  | null
  | bool (b : Bool)
  | num (q : ℚ)
  | str (s : String)
  | arr (xs : List Json)
  | obj (fs : List (String × Json))

mutual

/-- Decidable equality on `Json`, by mutual structural recursion (the type
nests `List`, so `DecidableEq` cannot be derived). -/
def Json.decEq : (a b : Json) → Decidable (a = b)
  | .null, .null => isTrue rfl
  | .bool a, .bool b =>
      match inferInstanceAs (Decidable (a = b)) with
      | isTrue h => isTrue (by rw [h])
      | isFalse h => isFalse (fun hc => h (Json.bool.inj hc))
  | .num a, .num b =>
      match inferInstanceAs (Decidable (a = b)) with
      | isTrue h => isTrue (by rw [h])
      | isFalse h => isFalse (fun hc => h (Json.num.inj hc))
  | .str a, .str b =>
      match inferInstanceAs (Decidable (a = b)) with
      | isTrue h => isTrue (by rw [h])
      | isFalse h => isFalse (fun hc => h (Json.str.inj hc))
  | .arr xs, .arr ys =>
      match Json.decEqList xs ys with
      | isTrue h => isTrue (by rw [h])
      | isFalse h => isFalse (fun hc => h (Json.arr.inj hc))
  | .obj fs, .obj gs =>
      match Json.decEqFields fs gs with
      | isTrue h => isTrue (by rw [h])
      | isFalse h => isFalse (fun hc => h (Json.obj.inj hc))
  | .null, .bool _ => isFalse (fun h => Json.noConfusion h)
  | .null, .num _ => isFalse (fun h => Json.noConfusion h)
  | .null, .str _ => isFalse (fun h => Json.noConfusion h)
  | .null, .arr _ => isFalse (fun h => Json.noConfusion h)
  | .null, .obj _ => isFalse (fun h => Json.noConfusion h)
  | .bool _, .null => isFalse (fun h => Json.noConfusion h)
  | .bool _, .num _ => isFalse (fun h => Json.noConfusion h)
  | .bool _, .str _ => isFalse (fun h => Json.noConfusion h)
  | .bool _, .arr _ => isFalse (fun h => Json.noConfusion h)
  | .bool _, .obj _ => isFalse (fun h => Json.noConfusion h)
  | .num _, .null => isFalse (fun h => Json.noConfusion h)
  | .num _, .bool _ => isFalse (fun h => Json.noConfusion h)
  | .num _, .str _ => isFalse (fun h => Json.noConfusion h)
  | .num _, .arr _ => isFalse (fun h => Json.noConfusion h)
  | .num _, .obj _ => isFalse (fun h => Json.noConfusion h)
  | .str _, .null => isFalse (fun h => Json.noConfusion h)
  | .str _, .bool _ => isFalse (fun h => Json.noConfusion h)
  | .str _, .num _ => isFalse (fun h => Json.noConfusion h)
  | .str _, .arr _ => isFalse (fun h => Json.noConfusion h)
  | .str _, .obj _ => isFalse (fun h => Json.noConfusion h)
  | .arr _, .null => isFalse (fun h => Json.noConfusion h)
  | .arr _, .bool _ => isFalse (fun h => Json.noConfusion h)
  | .arr _, .num _ => isFalse (fun h => Json.noConfusion h)
  | .arr _, .str _ => isFalse (fun h => Json.noConfusion h)
  | .arr _, .obj _ => isFalse (fun h => Json.noConfusion h)
  | .obj _, .null => isFalse (fun h => Json.noConfusion h)
  | .obj _, .bool _ => isFalse (fun h => Json.noConfusion h)
  | .obj _, .num _ => isFalse (fun h => Json.noConfusion h)
  | .obj _, .str _ => isFalse (fun h => Json.noConfusion h)
  | .obj _, .arr _ => isFalse (fun h => Json.noConfusion h)
termination_by structural a => a

/-- Decidable equality on `List Json`. -/
def Json.decEqList : (xs ys : List Json) → Decidable (xs = ys)
  | [], [] => isTrue rfl
  | [], _ :: _ => isFalse (fun h => List.noConfusion h)
  | _ :: _, [] => isFalse (fun h => List.noConfusion h)
  | x :: xs, y :: ys =>
      match Json.decEq x y, Json.decEqList xs ys with
      | isTrue h1, isTrue h2 => isTrue (by rw [h1, h2])
      | isFalse h1, _ => isFalse (fun hc => h1 (List.head_eq_of_cons_eq hc))
      | _, isFalse h2 => isFalse (fun hc => h2 (List.tail_eq_of_cons_eq hc))
termination_by structural xs => xs

/-- Decidable equality on object field lists. -/
def Json.decEqFields : (xs ys : List (String × Json)) → Decidable (xs = ys)
  | [], [] => isTrue rfl
  | [], _ :: _ => isFalse (fun h => List.noConfusion h)
  | _ :: _, [] => isFalse (fun h => List.noConfusion h)
  | (k1, v1) :: xs, (k2, v2) :: ys =>
      match inferInstanceAs (Decidable (k1 = k2)), Json.decEq v1 v2,
          Json.decEqFields xs ys with
      | isTrue h0, isTrue h1, isTrue h2 => isTrue (by rw [h0, h1, h2])
      | isFalse h0, _, _ =>
          isFalse (fun hc => h0 (congrArg Prod.fst (List.head_eq_of_cons_eq hc)))
      | _, isFalse h1, _ =>
          isFalse (fun hc => h1 (congrArg Prod.snd (List.head_eq_of_cons_eq hc)))
      | _, _, isFalse h2 => isFalse (fun hc => h2 (List.tail_eq_of_cons_eq hc))
termination_by structural xs => xs

end

instance : DecidableEq Json := Json.decEq

/-- Errors a modeled Python expression can raise, plus the two BigQuery job
failures `sync_raw_order_data` can run into. -/
inductive PyErr where
  | typeError
  | attributeError
  | indexError
  | keyError
  | valueError
  | sqlSyntaxError
  | tableNotFound
  | multiMatchError
deriving DecidableEq

/-- Python truthiness of a JSON value (`if x:`). -/
def pyTruthy : Json → Bool
  | .null => false
  | .bool b => b
  | .num q => decide (q ≠ 0)
  | .str s => decide (s ≠ "")
  | .arr xs => decide (xs ≠ [])
  | .obj fs => decide (fs ≠ [])

/-- Python `str(...)` of a JSON value.  Scalars are exact (`str(None)` is
the four-letter string used by the identity-extraction bug); `str` of a
non-integer number, list or dict is approximated by placeholder text, which
no theorem below exercises. -/
def pyStr : Json → String
  | .null => "None"
  | .bool true => "True"
  | .bool false => "False"
  | .str s => s
  | .num q => if q.den = 1 then toString q.num else toString q
  | .arr _ => "<list>"
  | .obj _ => "<dict>"

/-- Raw lookup of a key in a JSON object (`None`-free view): `none` when the
value is not an object or the key is absent. -/
def Json.lookup : Json → String → Option Json
  | .obj fs, k => (fs.find? (fun p => decide (p.1 = k))).map (fun p => p.2)
  | _, _ => none

/-- Python `o.get(k, d)`: raises `AttributeError` on a non-dict, returns the
default only when the key is absent. -/
def pyGetD : Json → String → Json → Except PyErr Json
  | .obj fs, k, d =>
      .ok ((((Json.obj fs).lookup k)).getD d)
  | _, _, _ => .error .attributeError

/-- Python `o.get(k)`: like `pyGetD` with default `None`; an explicit `null`
value and an absent key are indistinguishable, as in Python. -/
def pyGet (o : Json) (k : String) : Except PyErr Json := pyGetD o k .null

/-- Python iteration `for x in v`: lists yield elements, strings yield
one-character strings, dicts yield their keys, everything else raises
`TypeError`. -/
def pyIter : Json → Except PyErr (List Json)
  | .arr xs => .ok xs
  | .str s => .ok (s.data.map (fun c => Json.str (String.mk [c])))
  | .obj fs => .ok (fs.map (fun p => Json.str p.1))
  | _ => .error .typeError

/-- Python `v[0]`. -/
def pyIndexZero : Json → Except PyErr Json
  | .arr (x :: _) => .ok x
  | .arr [] => .error .indexError
  | .str s =>
      match s.data with
      | c :: _ => .ok (.str (String.mk [c]))
      | [] => .error .indexError
  | .obj _ => .error .keyError
  | _ => .error .typeError

/-- Hashability: lists and dicts are unhashable in Python and raise
`TypeError` when added to or looked up in a set. -/
def pyHashable : Json → Bool
  | .arr _ => false
  | .obj _ => false
  | _ => true

/-- Python `s.add(x)` on a set modeled as an insertion-ordered duplicate-free
list. -/
def pySetAdd (s : List Json) (x : Json) : Except PyErr (List Json) :=
  if pyHashable x then .ok (if x ∈ s then s else s ++ [x]) else .error .typeError

/-- Python `x in s` for a set `s`. -/
def pySetMem (x : Json) (s : List Json) : Except PyErr Bool :=
  if pyHashable x then .ok (decide (x ∈ s)) else .error .typeError

/-- Substring test on character lists, used by the Python `in` operator on
strings. -/
def charPrefix : List Char → List Char → Bool
  | [], _ => true
  | _ :: _, [] => false
  | c :: cs, d :: ds => c == d && charPrefix cs ds

/-- Substring search on character lists. -/
def charSearch (needle : List Char) : List Char → Bool
  | [] => needle.isEmpty
  | d :: ds => charPrefix needle (d :: ds) || charSearch needle ds

/-- Python `x in v` (the containment operator). -/
def pyContains (container : Json) (x : Json) : Except PyErr Bool :=
  match container with
  | .obj fs =>
      if pyHashable x then
        match x with
        | .str k => .ok (fs.any (fun p => decide (p.1 = k)))
        | _ => .ok false
      else .error .typeError
  | .arr xs => .ok (decide (x ∈ xs))
  | .str s =>
      match x with
      | .str sub => .ok (charSearch sub.data s.data)
      | _ => .error .typeError
  | _ => .error .typeError

/-- Digits-only parse of a character list. -/
def parseDigits : List Char → Option Nat
  | [] => none
  | cs =>
      cs.foldl
        (fun acc c =>
          match acc with
          | none => none
          | some n => if c.isDigit then some (n * 10 + (c.toNat - 48)) else none)
        (some 0)

/-- Python `int(s)` on a string: optional sign then decimal digits
(whitespace tolerance is not modeled; no theorem exercises it). -/
def pyParseInt (s : String) : Option Int :=
  match s.data with
  | [] => none
  | c :: cs =>
      if c = '-' then (parseDigits cs).map (fun n => -(n : Int))
      else if c = '+' then (parseDigits cs).map (fun n => (n : Int))
      else (parseDigits (c :: cs)).map (fun n => (n : Int))

/-- Fraction-part parse: digit characters to a rational in `[0, 1)`. -/
def parseFracPart : List Char → Option ℚ
  | [] => some 0
  | cs =>
      (parseDigits cs).map (fun n => (n : ℚ) / ((10 : ℚ) ^ cs.length))

/-- Unsigned decimal parse: digits with an optional single decimal point,
at least one digit overall. -/
def parseUnsignedFloat (cs : List Char) : Option ℚ :=
  match cs.takeWhile (fun c => c ≠ '.'), cs.dropWhile (fun c => c ≠ '.') with
  | intPart, [] => (parseDigits intPart).map (fun n => (n : ℚ))
  | intPart, _ :: fracPart =>
      if fracPart.any (fun c => c = '.') then none
      else if intPart = [] ∧ fracPart = [] then none
      else
        match (if intPart = [] then some 0 else parseDigits intPart),
              (if fracPart = [] then some (0 : ℚ) else parseFracPart fracPart) with
        | some n, some f => some ((n : ℚ) + f)
        | _, _ => none

/-- Python `float(s)` on a string: optional sign, decimal digits, optional
fractional part (exponents, infinities and NaN are not modeled; no theorem
exercises them). -/
def pyParseFloat (s : String) : Option ℚ :=
  match s.data with
  | [] => none
  | c :: cs =>
      if c = '-' then (parseUnsignedFloat cs).map (fun q => -q)
      else if c = '+' then parseUnsignedFloat cs
      else parseUnsignedFloat (c :: cs)

/-- Truncation toward zero, the behavior of Python `int(...)` on a float. -/
def truncToward0 (q : ℚ) : Int :=
  if 0 ≤ q then ⌊q⌋ else -⌊-q⌋

/-- Python `float(x)` on a JSON value; `none` models the `ValueError` and
`TypeError` branches the caller catches. -/
def pyFloatOf : Json → Option ℚ
  | .num q => some q
  | .str s => pyParseFloat s
  | .bool b => some (if b then 1 else 0)
  | _ => none

/-- Python `int(x)` on a JSON value; `none` models the `ValueError` and
`TypeError` branches the caller catches. -/
def pyIntOf : Json → Option Int
  | .num q => some (truncToward0 q)
  | .str s => pyParseInt s
  | .bool b => some (if b then 1 else 0)
  | _ => none

/-- Epoch value accepted by `datetime.fromtimestamp`: numbers (and bools)
succeed, anything else raises `TypeError`.  Exact rational arithmetic stands
in for `datetime` microsecond precision. -/
def pyTimestampQ : Json → Except PyErr ℚ
  | .num q => .ok q
  | .bool b => .ok (if b then 1 else 0)
  | _ => .error .typeError

/-! ## Reconciliation engine: `BigQueryService.sync_raw_order_data` -/

/-- The two valid sources; any other string makes the Python method raise
`ValueError` before touching any state, so the embedding quantifies over
this type. -/
inductive Source where
  | stord
  | shipbob
deriving DecidableEq

/-- The source-specific identity field (`id_field` in the Python code). -/
def Source.idField : Source → String
  | .stord => "order_number"
  | .shipbob => "id"

/-- The source name as the string bound to the `@source` query parameter. -/
def Source.tag : Source → String
  | .stord => "stord"
  | .shipbob => "shipbob"

/-- One row of a per-source details table (`_stord_details_schema` /
`_shipbob_details_schema`).  `ident` is the `order_number` column for stord
and the `id` column for shipbob; `raw_json` keeps the dumped order payload;
timestamps are abstract instants (`Nat`). -/
structure ExceptionRecord where
  ident : String
  raw_json : Json
  source : String
  first_seen_timestamp : Nat
  last_seen_timestamp : Nat
  is_currently_in_exception : Bool
  resolved_timestamp : Option Nat
deriving DecidableEq

/-- The durable state: the two BigQuery details tables, each a bag of rows
(BigQuery enforces no key uniqueness, so a table is a list, not a map). -/
structure Store where
  stord_details : List ExceptionRecord
  shipbob_details : List ExceptionRecord
deriving DecidableEq

/-- The store with both tables empty. -/
def emptyStore : Store := ⟨[], []⟩

/-- The details table targeted by a given source. -/
def Store.table (st : Store) : Source → List ExceptionRecord
  | .stord => st.stord_details
  | .shipbob => st.shipbob_details

/-- Replace the details table of a given source. -/
def Store.setTable (st : Store) : Source → List ExceptionRecord → Store
  | .stord, t => { st with stord_details := t }
  | .shipbob, t => { st with shipbob_details := t }

/-- The staging-row loop of `sync_raw_order_data` (lines 174-183): for each
order dict the code computes `str(order_data.get(id_field))` and skips the
row only when that string is empty (`if not order_id_value`).  Because
`str(None)` is the non-empty string `"None"`, a missing or null identity
does NOT trigger the skip.  A non-dict row raises `AttributeError` at
`.get`, aborting the whole call. -/
def extractStagingRows (idField : String) : List Json → Except PyErr (List (String × Json))
  | [] => .ok []
  | od :: rest =>
      match pyGet od idField with
      | .error e => .error e
      | .ok idv =>
          match extractStagingRows idField rest with
          | .error e => .error e
          | .ok rows =>
              if pyStr idv = "" then .ok rows else .ok ((pyStr idv, od) :: rows)

/-- Staging rows matching a target row under the MERGE `ON` condition
`T.id_field = S.id_field AND T.source = @source`. -/
def stagingMatches (staging : List (String × Json)) (src : String)
    (r : ExceptionRecord) : List (String × Json) :=
  if r.source = src then staging.filter (fun p => decide (p.1 = r.ident)) else []

/-- Effect of the MERGE on one target row: Case 2 (matched: refresh payload,
bump `last_seen_timestamp`, re-activate, clear `resolved_timestamp`) or
Case 3 (not matched by source, currently active, same source: resolve). -/
def mergeRowUpdate (staging : List (String × Json)) (src : String) (t : Nat)
    (r : ExceptionRecord) : ExceptionRecord :=
  match (stagingMatches staging src r).head? with
  | some p =>
      { r with raw_json := p.2, last_seen_timestamp := t,
               is_currently_in_exception := true, resolved_timestamp := none }
  | none =>
      if r.is_currently_in_exception ∧ r.source = src then
        { r with is_currently_in_exception := false, resolved_timestamp := some t }
      else r

/-- Rows inserted by MERGE Case 1 (not matched by target): each staging row
with no matching target row becomes a fresh active record with
`first_seen_timestamp = last_seen_timestamp = @timestamp`. -/
def mergeInserts (staging : List (String × Json)) (src : String) (t : Nat)
    (table : List ExceptionRecord) : List ExceptionRecord :=
  (staging.filter
      (fun p => !(table.any (fun r => decide (r.source = src) && decide (r.ident = p.1))))).map
    (fun p => ⟨p.1, p.2, src, t, t, true, none⟩)

/-- The MERGE statement (lines 209-240) against one details table.  BigQuery
raises when a target row is matched by more than one source row; a DML
statement that fails applies nothing. -/
def mergeTable (staging : List (String × Json)) (src : String) (t : Nat)
    (table : List ExceptionRecord) : Except PyErr (List ExceptionRecord) :=
  if table.any (fun r => decide (2 ≤ (stagingMatches staging src r).length)) then
    .error .multiMatchError
  else
    .ok (table.map (mergeRowUpdate staging src t) ++ mergeInserts staging src t table)

/-- `BigQueryService.sync_raw_order_data`.  Besides the staging extraction
and the MERGE, two failure paths are faithful to the generated SQL:

  * an empty batch routes the MERGE `USING` clause through
    `(SELECT * FROM ... WHERE 1=0)` wrapped in backticks by the surrounding
    f-string template, which is not valid BigQuery SQL, so the query job
    raises and no row changes;
  * a non-empty batch whose rows are all skipped never creates the staging
    table (line 185) yet the MERGE still references it, so the query fails
    with a not-found error.

Either way the call raises and the stored state is untouched. -/
def sync_raw_order_data (src : Source) (batch : List Json) (t : Nat)
    (st : Store) : Except PyErr Store :=
  if batch.isEmpty then .error .sqlSyntaxError
  else
    match extractStagingRows src.idField batch with
    | .error e => .error e
    | .ok staging =>
        if staging.isEmpty then .error .tableNotFound
        else
          match mergeTable staging src.tag t (st.table src) with
          | .error e => .error e
          | .ok tbl => .ok (st.setTable src tbl)

/-- Stored state after a `sync_raw_order_data` call: a failing call raises
to the caller but leaves the store unchanged (BigQuery DML is atomic and
the failure paths above abort before or inside a single MERGE job). -/
def syncState (src : Source) (batch : List Json) (t : Nat) (st : Store) : Store :=
  match sync_raw_order_data src batch t st with
  | .ok st2 => st2
  | .error _ => st

/-- A sequence of `sync_raw_order_data` invocations threading the stored
state (each entry: source, batch, timestamp; a failing call leaves the
state unchanged). -/
def applySyncCalls : List (Source × List Json × Nat) → Store → Store
  | [], st => st
  | c :: cs, st => applySyncCalls cs (syncState c.1 c.2.1 c.2.2 st)

/-! ## OOS classifiers: `get_shipbob_oos_skus`, `get_stord_oos_skus` -/

/-- The set comprehension of `get_shipbob_oos_skus` (lines 18-22): the
`inventory_id` values of status details named `OutOfStock` with a truthy
`inventory_id`, as an insertion-ordered set. -/
def shipbobOosInvIds (details : List Json) : Except PyErr (List Json) :=
  details.foldlM
    (fun ids detail => do
      let nm ← pyGet detail "name"
      if nm = Json.str "OutOfStock" then do
        let inv ← pyGet detail "inventory_id"
        if pyTruthy inv then pySetAdd ids inv else pure ids
      else pure ids)
    []

/-- The inner `for item in product["inventory_items"]` loop with its `break`:
stops at the first inventory item whose `id` is in the OOS set; items after
the first hit are never touched. -/
def shipbobItemHit (oosIds : List Json) : List Json → Except PyErr Bool
  | [] => .ok false
  | item :: rest => do
      let idv ← pyGet item "id"
      let hit ← pySetMem idv oosIds
      if hit then .ok true else shipbobItemHit oosIds rest

/-- The per-shipment product loop of `get_shipbob_oos_skus` (lines 27-33):
a product contributes its `sku` when the sku and its `inventory_items` are
truthy and some inventory item hits the OOS id set. -/
def shipbobProductsScan (oosIds : List Json) (products : List Json)
    (oos : List Json) : Except PyErr (List Json) :=
  products.foldlM
    (fun oos product => do
      let sku ← pyGet product "sku"
      if pyTruthy sku then do
        let invItems ← pyGet product "inventory_items"
        if pyTruthy invItems then do
          let items ← pyIter invItems
          let hit ← shipbobItemHit oosIds items
          if hit then pySetAdd oos sku else pure oos
        else pure oos
      else pure oos)
    oos

/-- `get_shipbob_oos_skus` (analytics_service.py lines 12-34).  The Python
set is modeled as an insertion-ordered duplicate-free list.  A shipment
with an empty OOS id set is skipped before its products are read
(`if not oos_inventory_ids: continue`). -/
def get_shipbob_oos_skus (raw : Json) : Except PyErr (List Json) := do
  let shipments ← pyGetD raw "shipments" (.arr [])
  let shipmentList ← pyIter shipments
  shipmentList.foldlM
    (fun oos shipment => do
      let details ← pyGetD shipment "status_details" (.arr [])
      let detailList ← pyIter details
      let oosIds ← shipbobOosInvIds detailList
      if oosIds.isEmpty then pure oos
      else do
        let products ← pyGetD shipment "products" (.arr [])
        let productList ← pyIter products
        shipbobProductsScan oosIds productList oos)
    []

/-- `get_stord_oos_skus` (analytics_service.py lines 36-45): the truthy
`item_sku` values of line items of sales order lines whose `status` is
exactly the string `backordered`. -/
def get_stord_oos_skus (raw : Json) : Except PyErr (List Json) := do
  let sols ← pyGetD raw "sales_order_lines" (.arr [])
  let solList ← pyIter sols
  solList.foldlM
    (fun oos sol => do
      let status ← pyGet sol "status"
      if status = Json.str "backordered" then do
        let olis ← pyGetD sol "order_line_items" (.arr [])
        let oliList ← pyIter olis
        oliList.foldlM
          (fun oos oli => do
            let sku ← pyGet oli "item_sku"
            if pyTruthy sku then pySetAdd oos sku else pure oos)
          oos
      else pure oos)
    []

/-! ## Analytics aggregation: `AnalyticsService.get_full_analytics` -/

/-- The stord quantity loop (lines 92-100) as the list of increments it
applies to `sku_frequency`, in order.  A failed `float(...)` parse still
creates the defaultdict key: `d[sku] += float(q)` evaluates `d[sku]` (which
inserts 0) before the parse raises, so the caught exception leaves a
0-valued entry - modeled as a 0 increment. -/
def stordFreqIncrements (oosSkus : List Json) (raw : Json) :
    Except PyErr (List (Json × ℚ)) := do
  let sols ← pyGetD raw "sales_order_lines" (.arr [])
  let solList ← pyIter sols
  solList.foldlM
    (fun incs sol => do
      let olis ← pyGetD sol "order_line_items" (.arr [])
      let oliList ← pyIter olis
      oliList.foldlM
        (fun incs item => do
          let sku ← pyGet item "item_sku"
          let isOos ← pySetMem sku oosSkus
          if isOos then do
            let q ← pyGet item "item_quantity"
            if pyTruthy q then
              match pyFloatOf q with
              | some qv => pure (incs ++ [(sku, qv)])
              | none => pure (incs ++ [(sku, 0)])
            else pure incs
          else pure incs)
        incs)
    []

/-- The shipbob quantity loop (lines 101-108): it reads the order's
top-level `products` list only; the guard is `quantity is not None` and the
parse is `int(...)`. -/
def shipbobFreqIncrements (oosSkus : List Json) (raw : Json) :
    Except PyErr (List (Json × ℚ)) := do
  let prods ← pyGetD raw "products" (.arr [])
  let prodList ← pyIter prods
  prodList.foldlM
    (fun incs item => do
      let sku ← pyGet item "sku"
      let isOos ← pySetMem sku oosSkus
      if isOos then do
        let q ← pyGet item "quantity"
        if q ≠ Json.null then
          match pyIntOf q with
          | some n => pure (incs ++ [(sku, (n : ℚ))])
          | none => pure (incs ++ [(sku, 0)])
        else pure incs
      else pure incs)
    []

/-- Total amount a list of increments adds under one sku key. -/
def incTotal (incs : List (Json × ℚ)) (k : Json) : ℚ :=
  ((incs.filter (fun p => decide (p.1 = k))).map (fun p => p.2)).sum

/-- The five defaultdict accumulators of `get_full_analytics` (lines 73-77),
each as an insertion-ordered association list, the key order Python dicts
keep. -/
structure AnalyticsState where
  sku_frequency : List (Json × ℚ)
  customer_impact : List (String × Nat)
  facility_counts : List (String × Nat)
  partner_counts : List (String × Nat)
  resolution_times : List (String × List ℚ)
deriving DecidableEq

/-- The empty accumulators. -/
def initState : AnalyticsState := ⟨[], [], [], [], []⟩

/-- `defaultdict` add: `d[k] += v` with default 0, creating the key at the
end on first touch. -/
def addFreq (m : List (Json × ℚ)) (k : Json) (v : ℚ) : List (Json × ℚ) :=
  if m.any (fun p => decide (p.1 = k)) then
    m.map (fun p => if p.1 = k then (p.1, p.2 + v) else p)
  else m ++ [(k, v)]

/-- Apply a list of sku-frequency increments in order. -/
def applyIncs (m : List (Json × ℚ)) (incs : List (Json × ℚ)) : List (Json × ℚ) :=
  incs.foldl (fun m p => addFreq m p.1 p.2) m

/-- `defaultdict` counter bump: `d[k] += 1` with default 0. -/
def bumpCount (m : List (String × Nat)) (k : String) : List (String × Nat) :=
  if m.any (fun p => decide (p.1 = k)) then
    m.map (fun p => if p.1 = k then (p.1, p.2 + 1) else p)
  else m ++ [(k, 1)]

/-- `defaultdict(list)` append: `d[k].append(v)` with a fresh list on first
touch. -/
def appendTime (m : List (String × List ℚ)) (k : String) (v : ℚ) :
    List (String × List ℚ) :=
  if m.any (fun p => decide (p.1 = k)) then
    m.map (fun p => if p.1 = k then (p.1, p.2 ++ [v]) else p)
  else m ++ [(k, [v])]

/-- The customer-identifier block (lines 112-122): destination address name
or recipient email when truthy, otherwise a synthesized
`stord_order_` / `shipbob_order_` string from the order id when that is
truthy, otherwise `None`. -/
def customerIdentifier (isStord : Bool) (raw : Json) : Except PyErr Json := do
  if isStord then do
    let da ← pyGetD raw "destination_address" (.obj [])
    let nm ← pyGet da "name"
    if pyTruthy nm then pure nm
    else do
      let a ← pyGet raw "order_id"
      let oid ← if pyTruthy a then pure a else pyGet raw "order_number"
      if pyTruthy oid then pure (Json.str ("stord_order_" ++ pyStr oid))
      else pure Json.null
  else do
    let rcp ← pyGetD raw "recipient" (.obj [])
    let em ← pyGet rcp "email"
    if pyTruthy em then pure em
    else do
      let oid ← pyGet raw "id"
      if pyTruthy oid then pure (Json.str ("shipbob_order_" ++ pyStr oid))
      else pure Json.null

/-- `if identifier: customer_impact[identifier.lower()] += 1` (lines
123-124); `.lower()` on a truthy non-string raises `AttributeError`. -/
def applyCustomer (st : AnalyticsState) (ident : Json) :
    Except PyErr AnalyticsState :=
  if pyTruthy ident then
    match ident with
    | .str s =>
        .ok { st with customer_impact := bumpCount st.customer_impact s.toLower }
    | _ => .error .attributeError
  else .ok st

/-- The facility block (lines 126-132): first facility activity's alias
(stord) or first shipment's location name (shipbob); the guarded collection
is fetched twice, as in the code. -/
def facilityOf (isStord : Bool) (raw : Json) : Except PyErr Json := do
  if isStord then do
    let fa ← pyGet raw "facility_activities"
    if pyTruthy fa then do
      let fa2 ← pyGet raw "facility_activities"
      let first ← pyIndexZero fa2
      pyGet first "facility_alias"
    else pure Json.null
  else do
    let sh ← pyGet raw "shipments"
    if pyTruthy sh then do
      let sh2 ← pyGet raw "shipments"
      let first ← pyIndexZero sh2
      let loc ← pyGetD first "location" (.obj [])
      pyGet loc "name"
    else pure Json.null

/-- `if facility: facility_hotspots_counts[f-string] += 1` (lines 133-134). -/
def applyFacility (st : AnalyticsState) (source : String) (fac : Json) :
    AnalyticsState :=
  if pyTruthy fac then
    { st with facility_counts :=
        bumpCount st.facility_counts (pyStr fac ++ " (" ++ source ++ ")") }
  else st

/-- The resolution-time block (lines 136-142): both raw epoch fields must be
truthy; `datetime.fromtimestamp` of a non-number raises; the duration is
`total_seconds() / 3600` as an exact rational. -/
def resolutionSample (raw : Json) : Except PyErr (Option ℚ) := do
  let r ← pyGet raw "resolved_timestamp"
  let f ← pyGet raw "first_seen_timestamp"
  if pyTruthy r ∧ pyTruthy f then do
    let rq ← pyTimestampQ r
    let fq ← pyTimestampQ f
    pure (some ((rq - fq) / 3600))
  else pure none

/-- `resolution_times[source].append(duration_hours)` when a sample exists. -/
def applyResolution (st : AnalyticsState) (source : String) :
    Option ℚ → AnalyticsState
  | some d =>
      { st with resolution_times := appendTime st.resolution_times source d }
  | none => st

/-- One iteration of the per-order loop (lines 79-142): falsy orders are
skipped (`if not raw_order: continue`); the source is the string
`"stord"` exactly when `"sales_order_lines" in raw_order`; then the sku
frequency, partner count, customer, facility and resolution blocks run in
order, any raised error aborting the whole loop. -/
def processOrder (st : AnalyticsState) (raw : Json) :
    Except PyErr AnalyticsState := do
  if pyTruthy raw then do
    let isStord ← pyContains raw (Json.str "sales_order_lines")
    let source := if isStord then "stord" else "shipbob"
    let oosSkus ←
      if isStord then get_stord_oos_skus raw else get_shipbob_oos_skus raw
    let incs ←
      if isStord then stordFreqIncrements oosSkus raw
      else shipbobFreqIncrements oosSkus raw
    let st1 := { st with sku_frequency := applyIncs st.sku_frequency incs }
    let st2 := { st1 with partner_counts := bumpCount st1.partner_counts source }
    let ident ← customerIdentifier isStord raw
    let st3 ← applyCustomer st2 ident
    let fac ← facilityOf isStord raw
    let st4 := applyFacility st3 source fac
    let sample ← resolutionSample raw
    pure (applyResolution st4 source sample)
  else pure st

/-- The whole per-order loop over the fetched orders. -/
def processOrders (orders : List Json) : Except PyErr AnalyticsState :=
  orders.foldlM processOrder initState

/-- Stable insertion into a descending-sorted list: an element goes before
the first strictly smaller key, so elements with equal keys keep their
original relative order, matching Python `sorted(..., reverse=True)`. -/
def insertByDesc (f : α → ℚ) (x : α) : List α → List α
  | [] => [x]
  | y :: ys => if f x < f y then y :: insertByDesc f x ys else x :: y :: ys

/-- Stable descending sort by a rational key. -/
def sortByDesc (f : α → ℚ) : List α → List α
  | [] => []
  | x :: xs => insertByDesc f x (sortByDesc f xs)

/-- Round half to even at integer precision, the behavior of Python
`round(...)` on the exact rational value. -/
def roundHalfEven (q : ℚ) : ℤ :=
  if q - ⌊q⌋ < 1 / 2 then ⌊q⌋
  else if 1 / 2 < q - ⌊q⌋ then ⌊q⌋ + 1
  else if ⌊q⌋ % 2 = 0 then ⌊q⌋ else ⌊q⌋ + 1

/-- Python `round(q, 2)` on the exact rational value. -/
def pyRound2 (q : ℚ) : ℚ := (roundHalfEven (q * 100) : ℚ) / 100

/-- Line 163: `{source: round(sum(times)/len(times), 2) if times else 0 for
source, times in resolution_times.items()}` - only sources that received at
least one appended sample are keys of `resolution_times` at all. -/
def avgResolution (rt : List (String × List ℚ)) : List (String × ℚ) :=
  rt.map
    (fun p => (p.1, if p.2.isEmpty then 0 else pyRound2 (p.2.sum / (p.2.length : ℚ))))

/-- `partner_performance_counts.get(key, 0)`. -/
def lookupCount (m : List (String × Nat)) (k : String) : Nat :=
  ((m.find? (fun p => decide (p.1 = k))).map (fun p => p.2)).getD 0

/-- Association-list lookup, for stating what the returned dicts map each
key to. -/
def lookupA (s : String) (m : List (String × α)) : Option α :=
  (m.find? (fun p => decide (p.1 = s))).map (fun p => p.2)

/-- The four analytics objects assembled at lines 144-171.  Dicts built from
sorted pair lists are kept as ordered pair lists; `sku_co_occurrence` is the
constant empty dict of line 145. -/
structure AnalyticsResult where
  sku_frequency : List (Json × ℚ)
  sku_co_occurrence : List (String × ℚ)
  total_customers_affected : Nat
  repeat_customers_affected : Nat
  top_repeat_customers : List (String × Nat)
  facility_hotspots : List (String × Nat)
  stord_oos_count : Nat
  shipbob_oos_count : Nat
  total_oos_count : Nat
  average_resolution_time_hours : List (String × ℚ)
deriving DecidableEq

/-- The formatting section of `get_full_analytics` (lines 144-171). -/
def formatResult (st : AnalyticsState) : AnalyticsResult :=
  { sku_frequency := (sortByDesc (fun p => p.2) st.sku_frequency).take 10
    sku_co_occurrence := []
    total_customers_affected := st.customer_impact.length
    repeat_customers_affected :=
      (st.customer_impact.filter (fun p => decide (1 < p.2))).length
    top_repeat_customers :=
      (sortByDesc (fun p => (p.2 : ℚ))
        (st.customer_impact.filter (fun p => decide (1 < p.2)))).take 5
    facility_hotspots := (sortByDesc (fun p => (p.2 : ℚ)) st.facility_counts).take 5
    stord_oos_count := lookupCount st.partner_counts "stord"
    shipbob_oos_count := lookupCount st.partner_counts "shipbob"
    total_oos_count := (st.partner_counts.map (fun p => p.2)).sum
    average_resolution_time_hours := avgResolution st.resolution_times }

/-- `AnalyticsService.get_full_analytics` (lines 62-175).  The argument is
the outcome of the store fetch at line 70 (inside the same `try`).  The
single `except Exception` at line 173 re-raises anything - a store failure
or any per-order processing error - as one `BigQueryClientError`, modeled
as the single error value; no partial result survives. -/
def get_full_analytics (fetched : Except PyErr (List Json)) :
    Except Unit AnalyticsResult :=
  match fetched with
  | .error _ => .error ()
  | .ok orders =>
      match processOrders orders with
      | .ok st => .ok (formatResult st)
      | .error _ => .error ()

/-! ## Spec-side definitions

Total (error-free) readers used to state the claims' own characterizations,
written from the claim wording, to be compared against the embedded code. -/

/-- Total field read: `null` for a missing key or a non-object. -/
def jGet (o : Json) (k : String) : Json := (o.lookup k).getD Json.null

/-- Total list view: non-arrays read as empty. -/
def jList : Json → List Json
  | .arr xs => xs
  | _ => []

/-- Key presence in an object. -/
def jHasKey (o : Json) (k : String) : Bool := (o.lookup k).isSome

/-- Claim C2 as stated: the sum of `item_quantity` over exactly those
order-line-items whose parent sales-order-line has status exactly
`backordered`, for one sku (same truthiness/parse handling as the code so
that only the parent-status restriction differs). -/
def backorderedOnlySum (raw : Json) (sku : Json) : ℚ :=
  ((jList (jGet raw "sales_order_lines")).map
    (fun sol =>
      if jGet sol "status" = Json.str "backordered" then
        ((jList (jGet sol "order_line_items")).map
          (fun item =>
            if jGet item "item_sku" = sku ∧ pyTruthy (jGet item "item_quantity") then
              match pyFloatOf (jGet item "item_quantity") with
              | some q => q
              | none => 0
            else 0)).sum
      else 0)).sum

/-- The set of skus appearing (truthy) in some backordered sales-order-line,
as an insertion-ordered duplicate-free list - the spec-side counterpart of
`get_stord_oos_skus`. -/
def backorderedSkuSet (raw : Json) : List Json :=
  (jList (jGet raw "sales_order_lines")).foldl
    (fun acc sol =>
      if jGet sol "status" = Json.str "backordered" then
        (jList (jGet sol "order_line_items")).foldl
          (fun acc item =>
            let sku := jGet item "item_sku"
            if pyTruthy sku ∧ sku ∉ acc then acc ++ [sku] else acc)
          acc
      else acc)
    []

/-- Amended C2 quantity: the sum of `item_quantity` over ALL order-line-items
carrying the sku, whatever their parent line's status (truthiness and parse
handling as in the code, a failed parse counting 0). -/
def allLinesQuantitySum (raw : Json) (sku : Json) : ℚ :=
  ((jList (jGet raw "sales_order_lines")).map
    (fun sol =>
      ((jList (jGet sol "order_line_items")).map
        (fun item =>
          if jGet item "item_sku" = sku ∧ pyTruthy (jGet item "item_quantity") then
            match pyFloatOf (jGet item "item_quantity") with
            | some q => q
            | none => 0
          else 0)).sum)).sum

/-- Claim C5 as stated: a product's sku is OOS iff, in the same shipment,
some inventory item of the product has an `id` equal to the `inventory_id`
of some status detail named `OutOfStock` - with no truthiness conditions. -/
def shipbobClaimOOS (raw : Json) (sku : Json) : Bool :=
  (jList (jGet raw "shipments")).any
    (fun sh =>
      (jList (jGet sh "products")).any
        (fun p =>
          decide (jGet p "sku" = sku) &&
          (jList (jGet p "inventory_items")).any
            (fun item =>
              (jList (jGet sh "status_details")).any
                (fun d =>
                  decide (jGet d "name" = Json.str "OutOfStock") &&
                  decide (jGet d "inventory_id" = jGet item "id")))))

/-- Amended C5: as the claim, but the product's sku and the status detail's
`inventory_id` must additionally be truthy, mirroring the code's guards. -/
def shipbobSpecOOS (raw : Json) (sku : Json) : Bool :=
  pyTruthy sku &&
  (jList (jGet raw "shipments")).any
    (fun sh =>
      (jList (jGet sh "products")).any
        (fun p =>
          decide (jGet p "sku" = sku) &&
          (jList (jGet p "inventory_items")).any
            (fun item =>
              (jList (jGet sh "status_details")).any
                (fun d =>
                  decide (jGet d "name" = Json.str "OutOfStock") &&
                  pyTruthy (jGet d "inventory_id") &&
                  decide (jGet d "inventory_id" = jGet item "id")))))

/-- Spec-side source classification of one processed order. -/
def sourceTagOf (o : Json) : String :=
  if jHasKey o "sales_order_lines" then "stord" else "shipbob"

/-- Numeric epoch read: numbers and bools (as 0/1) only. -/
def numQOf : Json → Option ℚ
  | .num q => some q
  | .bool b => some (if b then 1 else 0)
  | _ => none

/-- Spec-side resolution sample of one order: both raw epoch fields truthy
and numeric, duration in hours. -/
def specSampleOf (o : Json) : Option ℚ :=
  if pyTruthy (jGet o "resolved_timestamp") ∧ pyTruthy (jGet o "first_seen_timestamp") then
    match numQOf (jGet o "resolved_timestamp"), numQOf (jGet o "first_seen_timestamp") with
    | some rq, some fq => some ((rq - fq) / 3600)
    | _, _ => none
  else none

/-- Spec-side resolution samples of a source over the order list, in order. -/
def specSamples (orders : List Json) (s : String) : List ℚ :=
  orders.filterMap
    (fun o => if pyTruthy o ∧ sourceTagOf o = s then specSampleOf o else none)

/-- Samples recorded under a source key (empty when the key is absent). -/
def rtLookup (m : List (String × List ℚ)) (s : String) : List ℚ :=
  ((m.find? (fun p => decide (p.1 = s))).map (fun p => p.2)).getD []

/-- Whether a source key is present at all. -/
def rtHas (m : List (String × List ℚ)) (s : String) : Bool :=
  m.any (fun p => decide (p.1 = s))

/-- Spec-side mirror of one stord frequency-loop item: the increment list it
appends (a failed parse still creates a 0-valued entry). -/
def itemInc (oos : List Json) (item : Json) : List (Json × ℚ) :=
  let sku := jGet item "item_sku"
  if sku ∈ oos then
    let q := jGet item "item_quantity"
    if pyTruthy q then
      match pyFloatOf q with
      | some qv => [(sku, qv)]
      | none => [(sku, 0)]
    else []
  else []

/-- Spec-side mirror of the whole stord frequency loop: all increments, in
order. -/
def specIncList (oos : List Json) (raw : Json) : List (Json × ℚ) :=
  (jList (jGet raw "sales_order_lines")).foldl
    (fun incs sol =>
      (jList (jGet sol "order_line_items")).foldl
        (fun incs item => incs ++ itemInc oos item) incs)
    []

/-- Spec-side mirror of `get_shipbob_oos_skus`: same traversal, total
readers. -/
def specShipbobList (raw : Json) : List Json :=
  (jList (jGet raw "shipments")).foldl
    (fun oos sh =>
      let oosIds := (jList (jGet sh "status_details")).foldl
        (fun ids d =>
          if jGet d "name" = Json.str "OutOfStock" ∧
              pyTruthy (jGet d "inventory_id") = true ∧
              jGet d "inventory_id" ∉ ids
          then ids ++ [jGet d "inventory_id"] else ids)
        []
      if oosIds.isEmpty then oos
      else
        (jList (jGet sh "products")).foldl
          (fun oos p =>
            if pyTruthy (jGet p "sku") = true ∧
                pyTruthy (jGet p "inventory_items") = true ∧
                ((jList (jGet p "inventory_items")).any
                  (fun item => decide (jGet item "id" ∈ oosIds))) = true ∧
                jGet p "sku" ∉ oos
            then oos ++ [jGet p "sku"] else oos)
          oos)
    []

/-! ## Store invariant and batch side conditions -/

/-- Invariant of one details table: identities are pairwise distinct, every
row carries the table's source tag, and `resolved_timestamp` is set exactly
when the row is not currently in exception.  (Every row ever inserted
starts active, so a resolved row has necessarily been stored active once.) -/
def tableInvB (src : Source) (table : List ExceptionRecord) : Bool :=
  decide ((table.map (fun r => r.ident)).Nodup) &&
  table.all
    (fun r =>
      decide (r.source = src.tag) &&
      (r.resolved_timestamp.isSome == !r.is_currently_in_exception))

/-- Invariant of the whole store. -/
def StoreInvB (st : Store) : Bool :=
  tableInvB .stord st.stord_details && tableInvB .shipbob st.shipbob_details

/-- Side condition on a batch: the staging rows it extracts carry pairwise
distinct identity strings (vacuously true when extraction itself raises,
since a raising call changes nothing). -/
def batchIdsNodupB (src : Source) (batch : List Json) : Bool :=
  match extractStagingRows src.idField batch with
  | .ok rows => decide ((rows.map (fun p => p.1)).Nodup)
  | .error _ => true

/-- The identity `x` is among the staging rows the batch extracts. -/
def identInStagingB (src : Source) (batch : List Json) (x : String) : Bool :=
  match extractStagingRows src.idField batch with
  | .ok rows => rows.any (fun p => decide (p.1 = x))
  | .error _ => false

/-- The identity `x` is not among the staging rows (vacuously true when
extraction raises, since a raising call changes nothing). -/
def identNotInStagingB (src : Source) (batch : List Json) (x : String) : Bool :=
  match extractStagingRows src.idField batch with
  | .ok rows => !(rows.any (fun p => decide (p.1 = x)))
  | .error _ => true

/-! ## Concrete inputs used by the closed theorems and witnesses -/

/-- A store with one active record per source. -/
def storeC1 : Store :=
  ⟨[⟨"A", Json.null, "stord", 1, 1, true, none⟩],
   [⟨"B", Json.null, "shipbob", 1, 1, true, none⟩]⟩

/-- A shipbob order with no `id` field at all. -/
def orderC6 : Json := Json.obj [("reference_id", Json.num 77)]

/-- A well-formed stord order: one backordered line with sku `A`
quantity `"3"`. -/
def goodOrderC7 : Json :=
  Json.obj
    [("order_number", Json.str "SO1"),
     ("sales_order_lines",
      Json.arr
        [Json.obj
          [("status", Json.str "backordered"),
           ("order_line_items",
            Json.arr
              [Json.obj
                [("item_sku", Json.str "A"),
                 ("item_quantity", Json.str "3")]])]])]

/-- A malformed stord order: the `sales_order_lines` key is present with a
null value, so `for sol in raw_order.get("sales_order_lines", [])` iterates
over `None` and raises `TypeError`. -/
def badOrderC7 : Json := Json.obj [("sales_order_lines", Json.null)]

/-- A stord order in which sku `A` appears with quantity `"3"` in a
backordered line and with quantity `"5"` in a shipped line. -/
def orderC2 : Json :=
  Json.obj
    [("order_number", Json.str "SO2"),
     ("sales_order_lines",
      Json.arr
        [Json.obj
          [("status", Json.str "backordered"),
           ("order_line_items",
            Json.arr
              [Json.obj
                [("item_sku", Json.str "A"),
                 ("item_quantity", Json.str "3")]])],
         Json.obj
          [("status", Json.str "shipped"),
           ("order_line_items",
            Json.arr
              [Json.obj
                [("item_sku", Json.str "A"),
                 ("item_quantity", Json.str "5")]])]])]

/-- A shipbob order whose only shipment marks inventory id 0 as OutOfStock
and whose product `P` has an inventory item with id 0: the ids are equal,
but 0 is falsy, so the code's set comprehension drops it. -/
def orderC5 : Json :=
  Json.obj
    [("id", Json.num 11),
     ("shipments",
      Json.arr
        [Json.obj
          [("status_details",
            Json.arr
              [Json.obj
                [("name", Json.str "OutOfStock"),
                 ("inventory_id", Json.num 0)]]),
           ("products",
            Json.arr
              [Json.obj
                [("sku", Json.str "P"),
                 ("inventory_items", Json.arr [Json.obj [("id", Json.num 0)]])]])]])]

/-- A stord order carrying both raw epoch fields one hour apart. -/
def orderC8stord : Json :=
  Json.obj
    [("order_number", Json.str "SO3"),
     ("sales_order_lines", Json.arr []),
     ("first_seen_timestamp", Json.num 3600),
     ("resolved_timestamp", Json.num 7200)]

/-- A shipbob order with no resolution fields at all. -/
def orderC8shipbob : Json := Json.obj [("id", Json.num 1)]

/-- A stord batch with two distinct rows carrying the same identity `A`. -/
def dupBatchC4 : List Json :=
  [Json.obj [("order_number", Json.str "A")],
   Json.obj [("order_number", Json.str "A"), ("x", Json.num 1)]]

/-- A shipbob order whose products (with an OutOfStock hit) appear only
inside its shipment, with no top-level `products` key. -/
def orderC10 : Json :=
  Json.obj
    [("id", Json.num 9),
     ("shipments",
      Json.arr
        [Json.obj
          [("status_details",
            Json.arr
              [Json.obj
                [("name", Json.str "OutOfStock"),
                 ("inventory_id", Json.num 5)]]),
           ("products",
            Json.arr
              [Json.obj
                [("sku", Json.str "P"),
                 ("inventory_items", Json.arr [Json.obj [("id", Json.num 5)]])]])]])]

/-- A concrete call sequence with distinct-identity batches: an insert, a
full resolution attempt with an empty batch, and a shipbob insert. -/
def callsC4 : List (Source × List Json × Nat) :=
  [(.stord, [Json.obj [("order_number", Json.str "A")],
             Json.obj [("order_number", Json.str "B")]], 1),
   (.stord, [], 2),
   (.shipbob, [Json.obj [("id", Json.num 7)]], 3),
   (.stord, [Json.obj [("order_number", Json.str "B")]], 4)]

/-- Round-trip batches: identity `X1` present, absent, present again. -/
def b1C9 : List Json := [Json.obj [("order_number", Json.str "X1")]]

/-- Second round-trip batch: `X1` absent, another identity present. -/
def b2C9 : List Json := [Json.obj [("order_number", Json.str "Y2")]]

/-- Third round-trip batch: `X1` present again with a refreshed payload. -/
def b3C9 : List Json :=
  [Json.obj [("order_number", Json.str "X1"), ("v", Json.num 2)]]

/-- The accumulator state after processing `orderC10` from the start state. -/
def stateC10 : AnalyticsState :=
  match processOrder initState orderC10 with
  | .ok st => st
  | .error _ => initState

/-- The order list for the resolution-average checks. -/
def ordersC8 : List Json := [orderC8stord, orderC8shipbob]

/-- The accumulator state after processing `ordersC8`. -/
def stateC8 : AnalyticsState :=
  match processOrders ordersC8 with
  | .ok st => st
  | .error _ => initState

/-- The OOS sku set the stord classifier returns on `orderC2`. -/
def oosC2 : List Json :=
  match get_stord_oos_skus orderC2 with
  | .ok out => out
  | .error _ => []

/-- The increment list the stord frequency loop produces on `orderC2`. -/
def incsC2 : List (Json × ℚ) :=
  match stordFreqIncrements oosC2 orderC2 with
  | .ok out => out
  | .error _ => []

/-- The OOS sku set the shipbob classifier returns on a well-formed order
with one OutOfStock hit (for the C5 witness). -/
def orderC5good : Json :=
  Json.obj
    [("id", Json.num 12),
     ("shipments",
      Json.arr
        [Json.obj
          [("status_details",
            Json.arr
              [Json.obj
                [("name", Json.str "OutOfStock"),
                 ("inventory_id", Json.num 3)]]),
           ("products",
            Json.arr
              [Json.obj
                [("sku", Json.str "P1"),
                 ("inventory_items", Json.arr [Json.obj [("id", Json.num 3)]])],
               Json.obj
                [("sku", Json.str "P2"),
                 ("inventory_items", Json.arr [Json.obj [("id", Json.num 4)]])]])]])]

/-- Decidable equality for `Except`, needed to evaluate concrete runs of the
fallible embedded functions. -/
instance {ε α : Type} [DecidableEq ε] [DecidableEq α] : DecidableEq (Except ε α) :=
  fun a b =>
    match a, b with
    | .ok x, .ok y =>
        if h : x = y then isTrue (by rw [h])
        else isFalse (fun hc => h (Except.ok.inj hc))
    | .error x, .error y =>
        if h : x = y then isTrue (by rw [h])
        else isFalse (fun hc => h (Except.error.inj hc))
    | .ok _, .error _ => isFalse (fun hc => Except.noConfusion hc)
    | .error _, .ok _ => isFalse (fun hc => Except.noConfusion hc)

attribute [local semireducible] Rat.add Rat.sub Rat.mul Rat.inv

/-! ## Theorems -/

/-- Claim C1 (code bug): the claim says an empty batch resolves every
currently-active record of the source.  In the code, when
`raw_orders_data` is empty the f-string at line 211 wraps the fallback
subquery `(SELECT * FROM ... WHERE 1=0)` in backticks, producing invalid
BigQuery SQL (the backticks inside the interpolated table name close the
quoted identifier early), so the MERGE job raises and no record is
resolved: on a store holding one active record per source, the call errors
and the state - active record included - is unchanged. -/
theorem c1_empty_batch_sync_raises_and_resolves_nothing :
    sync_raw_order_data .stord [] 5 storeC1 = .error .sqlSyntaxError ∧
    syncState .stord [] 5 storeC1 = storeC1 ∧
    ((syncState .stord [] 5 storeC1).table .stord).all
      (fun r => r.is_currently_in_exception) = true := by
  refine ⟨rfl, rfl, rfl⟩

/-- Claim C6 (code bug): the claim (and the code's own skip-warning at line
178) says rows lacking the identity field are skipped and never inserted.
But line 176 computes `str(order_data.get(id_field))`, and `str(None)` is
the non-empty, truthy string `"None"`, so the `if not order_id_value` skip
never fires for a missing or null identity: the row is loaded into staging
under the literal identity `"None"` and inserted into the details table. -/
theorem c6_missing_identity_row_is_inserted_not_skipped :
    extractStagingRows "id" [orderC6] = .ok [("None", orderC6)] ∧
    syncState .shipbob [orderC6] 3 emptyStore =
      ⟨[], [⟨"None", orderC6, "shipbob", 3, 3, true, none⟩]⟩ := by
  refine ⟨rfl, by decide⟩

/-! ### Merge helper lemmas -/

theorem mergeRowUpdate_ident (staging : List (String × Json)) (src : String)
    (t : Nat) (r : ExceptionRecord) :
    (mergeRowUpdate staging src t r).ident = r.ident := by
  unfold mergeRowUpdate
  cases (stagingMatches staging src r).head? <;> simp
  split <;> rfl

theorem mergeRowUpdate_source (staging : List (String × Json)) (src : String)
    (t : Nat) (r : ExceptionRecord) :
    (mergeRowUpdate staging src t r).source = r.source := by
  unfold mergeRowUpdate
  cases (stagingMatches staging src r).head? <;> simp
  split <;> rfl

theorem mergeRowUpdate_first (staging : List (String × Json)) (src : String)
    (t : Nat) (r : ExceptionRecord) :
    (mergeRowUpdate staging src t r).first_seen_timestamp = r.first_seen_timestamp := by
  unfold mergeRowUpdate
  cases (stagingMatches staging src r).head? <;> simp
  split <;> rfl

theorem stagingMatches_congr (staging : List (String × Json)) (src : String)
    {a b : ExceptionRecord} (hident : a.ident = b.ident)
    (hsource : a.source = b.source) :
    stagingMatches staging src a = stagingMatches staging src b := by
  unfold stagingMatches
  rw [hident, hsource]

theorem stagingMatches_mergeRowUpdate (staging staging2 : List (String × Json))
    (src src2 : String) (t : Nat) (r : ExceptionRecord) :
    stagingMatches staging src (mergeRowUpdate staging2 src2 t r) =
      stagingMatches staging src r :=
  stagingMatches_congr staging src (mergeRowUpdate_ident _ _ _ _)
    (mergeRowUpdate_source _ _ _ _)

theorem mergeRowUpdate_of_head_some {staging : List (String × Json)}
    {src : String} (t : Nat) {r : ExceptionRecord} {p : String × Json}
    (h : (stagingMatches staging src r).head? = some p) :
    mergeRowUpdate staging src t r =
      { r with raw_json := p.2, last_seen_timestamp := t,
               is_currently_in_exception := true, resolved_timestamp := none } := by
  unfold mergeRowUpdate
  rw [h]

theorem mergeRowUpdate_of_head_none_active {staging : List (String × Json)}
    {src : String} (t : Nat) {r : ExceptionRecord}
    (h : (stagingMatches staging src r).head? = none)
    (ha : r.is_currently_in_exception = true) (hs : r.source = src) :
    mergeRowUpdate staging src t r =
      { r with is_currently_in_exception := false, resolved_timestamp := some t } := by
  unfold mergeRowUpdate
  rw [h]
  exact if_pos ⟨ha, hs⟩

theorem mergeRowUpdate_of_head_none_skip {staging : List (String × Json)}
    {src : String} (t : Nat) {r : ExceptionRecord}
    (h : (stagingMatches staging src r).head? = none)
    (hc : ¬(r.is_currently_in_exception = true ∧ r.source = src)) :
    mergeRowUpdate staging src t r = r := by
  unfold mergeRowUpdate
  rw [h]
  exact if_neg hc

/-- Applying the per-row MERGE effect twice with the same staging rows,
source and timestamp is the same as applying it once. -/
theorem mergeRowUpdate_idem (staging : List (String × Json)) (src : String)
    (t : Nat) (r : ExceptionRecord) :
    mergeRowUpdate staging src t (mergeRowUpdate staging src t r) =
      mergeRowUpdate staging src t r := by
  cases h : (stagingMatches staging src r).head? with
  | some p =>
      have h2 : (stagingMatches staging src (mergeRowUpdate staging src t r)).head? = some p := by
        rw [stagingMatches_mergeRowUpdate, h]
      rw [mergeRowUpdate_of_head_some t h2, mergeRowUpdate_of_head_some t h]
  | none =>
      have h2 : (stagingMatches staging src (mergeRowUpdate staging src t r)).head? = none := by
        rw [stagingMatches_mergeRowUpdate, h]
      by_cases hc : r.is_currently_in_exception = true ∧ r.source = src
      · rw [mergeRowUpdate_of_head_none_active t h hc.1 hc.2]
        rw [mergeRowUpdate_of_head_none_active t h hc.1 hc.2] at h2
        exact mergeRowUpdate_of_head_none_skip t h2 (by simp)
      · rw [mergeRowUpdate_of_head_none_skip t h hc]
        rw [mergeRowUpdate_of_head_none_skip t h hc] at h2
        exact mergeRowUpdate_of_head_none_skip t h2 hc

theorem eq_singleton_of_mem_of_length_le_one {α : Type} {l : List α} {x : α}
    (hx : x ∈ l) (h : l.length ≤ 1) : l = [x] := by
  match l, hx with
  | [y], hx =>
      have : x = y := by simpa using hx
      rw [this]
  | y :: z :: rest, _ => simp at h

theorem filter_fst_length_le_one {staging : List (String × Json)}
    (h : (staging.map Prod.fst).Nodup) (x : String) :
    (staging.filter (fun p => decide (p.1 = x))).length ≤ 1 := by
  induction staging with
  | nil => simp
  | cons p rest ih =>
      simp only [List.map_cons, List.nodup_cons] at h
      by_cases hp : p.1 = x
      · have hrest : rest.filter (fun q => decide (q.1 = x)) = [] := by
          rw [List.filter_eq_nil_iff]
          intro q hq
          simp only [decide_eq_true_eq]
          intro hqx
          exact h.1 (by
            rw [← hp] at hqx
            exact hqx ▸ List.mem_map_of_mem Prod.fst hq)
        simp [List.filter_cons, hp, hrest]
      · simp only [List.filter_cons, decide_eq_true_eq, hp, if_false]
        exact ih h.2

theorem stagingMatches_length_le_one {staging : List (String × Json)}
    (h : (staging.map Prod.fst).Nodup) (src : String) (r : ExceptionRecord) :
    (stagingMatches staging src r).length ≤ 1 := by
  unfold stagingMatches
  split
  · exact filter_fst_length_le_one h r.ident
  · simp

theorem mergeTable_ok_elim {staging : List (String × Json)} {src : String}
    {t : Nat} {table out : List ExceptionRecord}
    (h : mergeTable staging src t table = .ok out) :
    (∀ r ∈ table, (stagingMatches staging src r).length ≤ 1) ∧
    out = table.map (mergeRowUpdate staging src t) ++ mergeInserts staging src t table := by
  unfold mergeTable at h
  by_cases hg :
      table.any (fun r => decide (2 ≤ (stagingMatches staging src r).length)) = true
  · rw [if_pos hg] at h
    exact absurd h (by simp)
  · rw [if_neg hg] at h
    refine ⟨?_, (Except.ok.inj h).symm⟩
    intro r hr
    by_contra hlen
    exact hg (List.any_eq_true.mpr ⟨r, hr, by simpa using Nat.le_of_not_lt (by omega)⟩)

theorem mergeTable_ok_of_nodup {staging : List (String × Json)}
    (h : (staging.map Prod.fst).Nodup) (src : String) (t : Nat)
    (table : List ExceptionRecord) :
    mergeTable staging src t table =
      .ok (table.map (mergeRowUpdate staging src t) ++ mergeInserts staging src t table) := by
  unfold mergeTable
  rw [if_neg]
  intro hg
  obtain ⟨r, _, hr⟩ := List.any_eq_true.mp hg
  have := stagingMatches_length_le_one h src r
  simp only [decide_eq_true_eq] at hr
  omega

theorem mergeInserts_of_merged {staging : List (String × Json)} {src : String}
    {t t2 : Nat} {table : List ExceptionRecord} :
    mergeInserts staging src t2
        (table.map (mergeRowUpdate staging src t) ++ mergeInserts staging src t table) =
      [] := by
  unfold mergeInserts
  rw [List.filter_eq_nil_iff.mpr, List.map_nil]
  intro p hp
  simp only [Bool.not_eq_true', Bool.not_eq_false]
  rw [List.any_eq_true]
  by_cases hA : table.any (fun r => decide (r.source = src) && decide (r.ident = p.1)) = true
  · obtain ⟨r0, hr0, hprop⟩ := List.any_eq_true.mp hA
    simp only [Bool.and_eq_true, decide_eq_true_eq] at hprop
    refine ⟨mergeRowUpdate staging src t r0,
      List.mem_append_left _ (List.mem_map_of_mem _ hr0), ?_⟩
    simp [mergeRowUpdate_source, mergeRowUpdate_ident, hprop.1, hprop.2]
  · have hmem : p ∈ staging.filter
        (fun p => !(table.any (fun r => decide (r.source = src) && decide (r.ident = p.1)))) := by
      rw [List.mem_filter]
      exact ⟨hp, by simp [hA]⟩
    refine ⟨⟨p.1, p.2, src, t, t, true, none⟩,
      List.mem_append_right _ (List.mem_map_of_mem _ hmem), by simp⟩

/-- The MERGE is a fixpoint: merging the same staging rows into the result
of a successful merge, when it succeeds, reproduces the same table. -/
theorem mergeTable_fixpoint {staging : List (String × Json)} {src : String}
    {t : Nat} {table out out2 : List ExceptionRecord}
    (h1 : mergeTable staging src t table = .ok out)
    (h2 : mergeTable staging src t out = .ok out2) : out2 = out := by
  obtain ⟨_, hout⟩ := mergeTable_ok_elim h1
  obtain ⟨hle, hout2⟩ := mergeTable_ok_elim h2
  have hins : mergeInserts staging src t out = [] := by
    rw [hout]
    exact mergeInserts_of_merged
  have hmap : out.map (mergeRowUpdate staging src t) = out := by
    rw [hout, List.map_append, List.map_map]
    have h1map :
        table.map (mergeRowUpdate staging src t ∘ mergeRowUpdate staging src t) =
          table.map (mergeRowUpdate staging src t) :=
      List.map_congr_left (fun r _ => mergeRowUpdate_idem staging src t r)
    have hpoint : ∀ r ∈ mergeInserts staging src t table,
        mergeRowUpdate staging src t r = id r := by
      intro r hr
      have hrmem : r ∈ out := by
        rw [hout]
        exact List.mem_append_right _ hr
      unfold mergeInserts at hr
      obtain ⟨p, hpmem, hpr⟩ := List.mem_map.mp hr
      have hpstag : p ∈ staging := (List.mem_filter.mp hpmem).1
      have hmatch : stagingMatches staging src r = [p] := by
        apply eq_singleton_of_mem_of_length_le_one ?_ (hle r hrmem)
        unfold stagingMatches
        rw [← hpr]
        simp [List.mem_filter, hpstag]
      rw [mergeRowUpdate_of_head_some t (by rw [hmatch]; rfl), ← hpr]
      rfl
    have h2map :
        (mergeInserts staging src t table).map (mergeRowUpdate staging src t) =
          mergeInserts staging src t table :=
      (List.map_congr_left hpoint).trans (List.map_id _)
    rw [h1map, h2map]
  rw [hout2, hmap, hins, List.append_nil]

theorem store_table_setTable (st : Store) (src : Source)
    (tb : List ExceptionRecord) : (st.setTable src tb).table src = tb := by
  cases src <;> rfl

theorem store_setTable_setTable (st : Store) (src : Source)
    (tb1 tb2 : List ExceptionRecord) :
    (st.setTable src tb1).setTable src tb2 = st.setTable src tb2 := by
  cases src <;> rfl

theorem syncState_of_error {src : Source} {batch : List Json} {t : Nat}
    {st : Store} {e : PyErr} (h : sync_raw_order_data src batch t st = .error e) :
    syncState src batch t st = st := by
  unfold syncState
  rw [h]

theorem syncState_of_ok {src : Source} {batch : List Json} {t : Nat}
    {st s1 : Store} (h : sync_raw_order_data src batch t st = .ok s1) :
    syncState src batch t st = s1 := by
  unfold syncState
  rw [h]

theorem sync_ok_elim {src : Source} {batch : List Json} {t : Nat} {st s1 : Store}
    (h : sync_raw_order_data src batch t st = .ok s1) :
    ∃ staging out,
      batch.isEmpty = false ∧
      extractStagingRows src.idField batch = .ok staging ∧
      staging.isEmpty = false ∧
      mergeTable staging src.tag t (st.table src) = .ok out ∧
      s1 = st.setTable src out := by
  unfold sync_raw_order_data at h
  by_cases hb : batch.isEmpty
  · rw [if_pos hb] at h
    exact absurd h (by simp)
  · rw [if_neg hb] at h
    cases hex : extractStagingRows src.idField batch with
    | error e =>
        rw [hex] at h
        dsimp only at h
        exact absurd h (by simp)
    | ok staging =>
        rw [hex] at h
        dsimp only at h
        by_cases hs : staging.isEmpty
        · rw [if_pos hs] at h
          exact absurd h (by simp)
        · rw [if_neg hs] at h
          cases hm : mergeTable staging src.tag t (st.table src) with
          | error e =>
              rw [hm] at h
              dsimp only at h
              exact absurd h (by simp)
          | ok out =>
              rw [hm] at h
              dsimp only at h
              exact ⟨staging, out, Bool.eq_false_iff.mpr hb, rfl,
                Bool.eq_false_iff.mpr hs, hm, (Except.ok.inj h).symm⟩

theorem sync_eq_merge {src : Source} {batch : List Json} {t : Nat} (st : Store)
    {staging : List (String × Json)}
    (hb : batch.isEmpty = false)
    (hex : extractStagingRows src.idField batch = .ok staging)
    (hs : staging.isEmpty = false) :
    sync_raw_order_data src batch t st =
      match mergeTable staging src.tag t (st.table src) with
      | .error e => .error e
      | .ok tbl => .ok (st.setTable src tbl) := by
  unfold sync_raw_order_data
  rw [if_neg (by simp [hb]), hex]
  dsimp only
  rw [if_neg (by simp [hs])]

/-- Claim C3 (confirmed at the level of stored state): running the MERGE
sync twice with the same source, batch and timestamp leaves the same stored
state as running it once - in every case, including the failing ones, since
a failing call applies nothing.  (When the first call succeeds, the second
either succeeds reproducing the same table - the MERGE fixpoint - or, when
the batch carried duplicate identities, fails its multi-match check and
changes nothing.)  First-seen timestamps are part of the state equality. -/
theorem c3_reconciliation_idempotent (src : Source) (batch : List Json)
    (t : Nat) (st : Store) :
    syncState src batch t (syncState src batch t st) = syncState src batch t st := by
  cases h1 : sync_raw_order_data src batch t st with
  | error e =>
      rw [syncState_of_error h1, syncState_of_error h1]
  | ok s1 =>
      obtain ⟨staging, out, hb, hex, hs, hm, hs1⟩ := sync_ok_elim h1
      have htbl : s1.table src = out := by
        rw [hs1]
        exact store_table_setTable st src out
      rw [syncState_of_ok h1]
      have hsync2 := @sync_eq_merge src batch t s1 _ hb hex hs
      rw [htbl] at hsync2
      cases hm2 : mergeTable staging src.tag t out with
      | error e2 =>
          rw [hm2] at hsync2
          exact syncState_of_error hsync2
      | ok out2 =>
          rw [hm2] at hsync2
          have hfix : out2 = out := mergeTable_fixpoint hm hm2
          rw [syncState_of_ok hsync2, hfix, hs1, store_setTable_setTable]

theorem tableInvB_iff {src : Source} {table : List ExceptionRecord} :
    tableInvB src table = true ↔
      (table.map (fun r => r.ident)).Nodup ∧
      ∀ r ∈ table, r.source = src.tag ∧
        (r.resolved_timestamp.isSome = !r.is_currently_in_exception) := by
  unfold tableInvB
  simp [List.all_eq_true]

theorem tableInvB_merge {src : Source} {staging : List (String × Json)}
    {t : Nat} {table : List ExceptionRecord}
    (hinv : tableInvB src table = true) (hnodup : (staging.map Prod.fst).Nodup) :
    tableInvB src
      (table.map (mergeRowUpdate staging src.tag t) ++
        mergeInserts staging src.tag t table) = true := by
  rw [tableInvB_iff] at hinv ⊢
  obtain ⟨hnd, hall⟩ := hinv
  constructor
  · rw [List.map_append]
    have e1 : (table.map (mergeRowUpdate staging src.tag t)).map (fun r => r.ident) =
        table.map (fun r => r.ident) := by
      rw [List.map_map]
      exact List.map_congr_left (fun r _ => mergeRowUpdate_ident _ _ _ r)
    have e2 : (mergeInserts staging src.tag t table).map (fun r => r.ident) =
        (staging.filter
          (fun p => !(table.any
            (fun r => decide (r.source = src.tag) && decide (r.ident = p.1))))).map
          Prod.fst := by
      unfold mergeInserts
      rw [List.map_map]
      rfl
    rw [e1, e2]
    apply List.Nodup.append hnd
    · exact hnodup.sublist ((List.filter_sublist staging).map Prod.fst)
    · intro a ha1 ha2
      obtain ⟨p, hpmem, hpa⟩ := List.mem_map.mp ha2
      obtain ⟨hpstag, hpcond⟩ := List.mem_filter.mp hpmem
      obtain ⟨r, hrmem, hra⟩ := List.mem_map.mp ha1
      have hfalse : (table.any
          (fun r => decide (r.source = src.tag) && decide (r.ident = p.1))) = false := by
        simpa using hpcond
      have := List.any_eq_false.mp hfalse r hrmem
      simp only [Bool.and_eq_true, decide_eq_true_eq, not_and] at this
      exact this (hall r hrmem).1 (by rw [hra, hpa])
  · intro r hr
    rcases List.mem_append.mp hr with hr0 | hrins
    · obtain ⟨r0, hr0mem, hr0eq⟩ := List.mem_map.mp hr0
      obtain ⟨hsrc0, hflag0⟩ := hall r0 hr0mem
      cases hh : (stagingMatches staging src.tag r0).head? with
      | some p =>
          rw [mergeRowUpdate_of_head_some t hh] at hr0eq
          rw [← hr0eq]
          exact ⟨hsrc0, by simp⟩
      | none =>
          by_cases hc : r0.is_currently_in_exception = true ∧ r0.source = src.tag
          · rw [mergeRowUpdate_of_head_none_active t hh hc.1 hc.2] at hr0eq
            rw [← hr0eq]
            exact ⟨hsrc0, by simp⟩
          · rw [mergeRowUpdate_of_head_none_skip t hh hc] at hr0eq
            rw [← hr0eq]
            exact ⟨hsrc0, hflag0⟩
    · unfold mergeInserts at hrins
      obtain ⟨p, _, hpr⟩ := List.mem_map.mp hrins
      rw [← hpr]
      exact ⟨rfl, by simp⟩

theorem storeInv_syncState {st : Store} {src : Source} {batch : List Json}
    {t : Nat} (h : StoreInvB st = true)
    (hb : batchIdsNodupB src batch = true) :
    StoreInvB (syncState src batch t st) = true := by
  cases h1 : sync_raw_order_data src batch t st with
  | error e =>
      rw [syncState_of_error h1]
      exact h
  | ok s1 =>
      rw [syncState_of_ok h1]
      obtain ⟨staging, out, hb2, hex, hs, hm, hs1⟩ := sync_ok_elim h1
      have hnodup : (staging.map Prod.fst).Nodup := by
        unfold batchIdsNodupB at hb
        rw [hex] at hb
        simpa using hb
      obtain ⟨_, hout⟩ := mergeTable_ok_elim hm
      have hinv2 : tableInvB .stord st.stord_details = true ∧
          tableInvB .shipbob st.shipbob_details = true := by
        have hh := h
        simp only [StoreInvB, Bool.and_eq_true] at hh
        exact hh
      have hsrcInv : tableInvB src (st.table src) = true := by
        cases src
        · exact hinv2.1
        · exact hinv2.2
      have houtInv : tableInvB src out = true := by
        rw [hout]
        exact tableInvB_merge hsrcInv hnodup
      rw [hs1]
      cases src
      · simp only [StoreInvB, Store.setTable, Bool.and_eq_true]
        exact ⟨houtInv, hinv2.2⟩
      · simp only [StoreInvB, Store.setTable, Bool.and_eq_true]
        exact ⟨hinv2.1, houtInv⟩

theorem storeInv_applySyncCalls :
    ∀ (calls : List (Source × List Json × Nat)) (st : Store),
      StoreInvB st = true →
      (calls.all (fun c => batchIdsNodupB c.1 c.2.1)) = true →
      StoreInvB (applySyncCalls calls st) = true := by
  intro calls
  induction calls with
  | nil =>
      intro st h _
      exact h
  | cons c cs ih =>
      intro st h hall
      simp only [List.all_cons, Bool.and_eq_true] at hall
      exact ih _ (storeInv_syncState h hall.1) hall.2

/-- Claim C4 (amended): from the empty store, through any sequence of
`sync_raw_order_data` calls whose batches extract pairwise-distinct
identities, the stored state keeps the invariant: at most one record per
(source, identity), and `resolved_timestamp` is set exactly when
`is_currently_in_exception` is false (every stored record was inserted
active, so a resolved record has been stored active at least once).  The
distinct-identity side condition is forced by the counterexample: a batch
repeating one identity makes the MERGE insert two rows for it. -/
theorem c4_invariant_distinct_identity_batches
    (calls : List (Source × List Json × Nat))
    (h : (calls.all (fun c => batchIdsNodupB c.1 c.2.1)) = true) :
    StoreInvB (applySyncCalls calls emptyStore) = true :=
  storeInv_applySyncCalls calls emptyStore (by rfl) h

/-- Claim C4 as stated is false: a single batch carrying the same
`order_number` twice (legal input, e.g. duplicates within one fetched page)
makes the MERGE insert two records for the identity `A`, violating the
at-most-one-record invariant. -/
theorem c4_counterexample_duplicate_identity_batch :
    StoreInvB (syncState .stord dupBatchC4 1 emptyStore) = false ∧
    ((syncState .stord dupBatchC4 1 emptyStore).table .stord).map
        (fun r => r.ident) = ["A", "A"] := by
  refine ⟨by rfl, by rfl⟩

/-- Witness for the amended C4 theorem at a concrete call sequence. -/
theorem c4_invariant_witness :
    (callsC4.all (fun c => batchIdsNodupB c.1 c.2.1)) = true ∧
    StoreInvB (applySyncCalls callsC4 emptyStore) = true :=
  ⟨by rfl, c4_invariant_distinct_identity_batches callsC4 (by rfl)⟩

/-! ### Tracking one identity through merges (for the round-trip claim) -/

theorem merge_out_filter_ident {staging : List (String × Json)} {src : String}
    {t : Nat} {table : List ExceptionRecord} (X : String) :
    ((table.map (mergeRowUpdate staging src t) ++
        mergeInserts staging src t table).filter (fun r => decide (r.ident = X))) =
      (table.filter (fun r => decide (r.ident = X))).map (mergeRowUpdate staging src t) ++
      ((staging.filter
          (fun p => !(table.any
            (fun r => decide (r.source = src) && decide (r.ident = p.1))))).filter
        (fun p => decide (p.1 = X))).map
        (fun p => (⟨p.1, p.2, src, t, t, true, none⟩ : ExceptionRecord)) := by
  rw [List.filter_append]
  congr 1
  · rw [List.filter_map]
    congr 1
    apply List.filter_congr
    intro r _
    simp [Function.comp, mergeRowUpdate_ident]
  · unfold mergeInserts
    rw [List.filter_map]
    congr 1

theorem filter_ident_of_all_ne {table : List ExceptionRecord} {X : String}
    (h : table.all (fun r => !(decide (r.ident = X))) = true) :
    table.filter (fun r => decide (r.ident = X)) = [] := by
  rw [List.filter_eq_nil_iff]
  intro r hr
  have := List.all_eq_true.mp h r hr
  simpa using this

theorem staging_filter_singleton {staging : List (String × Json)} {X : String}
    (hnodup : (staging.map Prod.fst).Nodup)
    (hmem : staging.any (fun p => decide (p.1 = X)) = true) :
    ∃ pl, staging.filter (fun p => decide (p.1 = X)) = [(X, pl)] := by
  obtain ⟨p, hp, hpx⟩ := List.any_eq_true.mp hmem
  simp only [decide_eq_true_eq] at hpx
  refine ⟨p.2, ?_⟩
  have : staging.filter (fun p => decide (p.1 = X)) = [p] :=
    eq_singleton_of_mem_of_length_le_one
      (List.mem_filter.mpr ⟨hp, by simp [hpx]⟩)
      (filter_fst_length_le_one hnodup X)
  rw [this, ← hpx]

/-- Insert round: starting from a table holding no record with identity `X`,
a successful merge whose staging rows contain `X` leaves exactly one record
for `X`: freshly inserted, active, unresolved, first and last seen at the
merge timestamp. -/
theorem merge_insert_round {staging : List (String × Json)} {src : String}
    {t : Nat} {table : List ExceptionRecord} {X : String}
    (hnone : table.filter (fun r => decide (r.ident = X)) = [])
    (hnodup : (staging.map Prod.fst).Nodup)
    (hmem : staging.any (fun p => decide (p.1 = X)) = true) :
    ∃ pl,
      ((table.map (mergeRowUpdate staging src t) ++
          mergeInserts staging src t table).filter
        (fun r => decide (r.ident = X))) = [⟨X, pl, src, t, t, true, none⟩] := by
  obtain ⟨pl, hsingle⟩ := staging_filter_singleton hnodup hmem
  refine ⟨pl, ?_⟩
  rw [merge_out_filter_ident X, hnone]
  simp only [List.map_nil, List.nil_append]
  have hcond : ((staging.filter
      (fun p => !(table.any
        (fun r => decide (r.source = src) && decide (r.ident = p.1))))).filter
      (fun p => decide (p.1 = X))) = [(X, pl)] := by
    rw [List.filter_filter]
    rw [← hsingle]
    apply List.filter_congr
    intro a _
    by_cases hax : a.1 = X
    · have : table.any (fun r => decide (r.source = src) && decide (r.ident = X)) = false := by
        rw [List.any_eq_false]
        intro r hr
        intro hcontra
        simp only [Bool.and_eq_true, decide_eq_true_eq] at hcontra
        have : r ∈ table.filter (fun r => decide (r.ident = X)) :=
          List.mem_filter.mpr ⟨hr, by simp [hcontra.2]⟩
        rw [hnone] at this
        exact absurd this (List.not_mem_nil r)
      simp [hax, this]
    · simp [hax]
  rw [hcond]
  rfl

/-- Absent round: when the staging rows do not contain `X`, the merged
table's `X`-records are exactly the per-row MERGE effect applied to the old
ones (resolution or no-op; never an insert). -/
theorem merge_absent_round {staging : List (String × Json)} {src : String}
    {t : Nat} {table : List ExceptionRecord} {X : String}
    (hnot : staging.any (fun p => decide (p.1 = X)) = false) :
    ((table.map (mergeRowUpdate staging src t) ++
        mergeInserts staging src t table).filter
      (fun r => decide (r.ident = X))) =
      (table.filter (fun r => decide (r.ident = X))).map
        (mergeRowUpdate staging src t) := by
  rw [merge_out_filter_ident X]
  have : ((staging.filter
      (fun p => !(table.any
        (fun r => decide (r.source = src) && decide (r.ident = p.1))))).filter
      (fun p => decide (p.1 = X))) = [] := by
    rw [List.filter_eq_nil_iff]
    intro p hp
    have := List.any_eq_false.mp hnot p (List.mem_filter.mp hp).1
    simpa using this
  rw [this]
  simp

/-- A record with no staging match keeps its identity, source and first-seen
timestamp under the per-row MERGE effect, and ends not-in-exception with
`resolved_timestamp` set unless it was already inactive. -/
theorem mergeRowUpdate_no_match {staging : List (String × Json)} {src : String}
    {t : Nat} {r : ExceptionRecord}
    (hx : staging.filter (fun p => decide (p.1 = r.ident)) = [])
    (hsrc : r.source = src) :
    mergeRowUpdate staging src t r =
      (if r.is_currently_in_exception then
        { r with is_currently_in_exception := false, resolved_timestamp := some t }
      else r) := by
  have hmatch : stagingMatches staging src r = [] := by
    unfold stagingMatches
    rw [if_pos hsrc, hx]
  by_cases ha : r.is_currently_in_exception = true
  · rw [mergeRowUpdate_of_head_none_active t (by rw [hmatch]; rfl) ha hsrc, if_pos ha]
  · rw [mergeRowUpdate_of_head_none_skip t (by rw [hmatch]; rfl) (by simp [ha]),
      if_neg ha]

/-- Update round: a merge whose staging rows contain `X` (distinct ids)
applied to a table holding exactly one `X`-record of the right source
refreshes that record: payload replaced, last-seen bumped, re-activated,
resolution cleared, first-seen untouched. -/
theorem merge_update_round {staging : List (String × Json)} {src : String}
    {t : Nat} {table : List ExceptionRecord} {X : String} {r : ExceptionRecord}
    (hone : table.filter (fun rr => decide (rr.ident = X)) = [r])
    (hsrc : r.source = src)
    (hnodup : (staging.map Prod.fst).Nodup)
    (hmem : staging.any (fun p => decide (p.1 = X)) = true) :
    ∃ pl,
      ((table.map (mergeRowUpdate staging src t) ++
          mergeInserts staging src t table).filter
        (fun rr => decide (rr.ident = X))) =
        [{ r with raw_json := pl, last_seen_timestamp := t,
                  is_currently_in_exception := true, resolved_timestamp := none }] := by
  obtain ⟨pl, hsingle⟩ := staging_filter_singleton hnodup hmem
  have hrx : r.ident = X := by
    have : r ∈ table.filter (fun rr => decide (rr.ident = X)) := by
      rw [hone]
      exact List.mem_singleton.mpr rfl
    simpa using (List.mem_filter.mp this).2
  refine ⟨pl, ?_⟩
  rw [merge_out_filter_ident X, hone]
  have hins : ((staging.filter
      (fun p => !(table.any
        (fun rr => decide (rr.source = src) && decide (rr.ident = p.1))))).filter
      (fun p => decide (p.1 = X))) = [] := by
    rw [List.filter_eq_nil_iff]
    intro p hp
    obtain ⟨hpstag, hpcond⟩ := List.mem_filter.mp hp
    simp only [Bool.not_eq_true', List.any_eq_false] at hpcond
    intro hpx
    simp only [decide_eq_true_eq] at hpx
    have hrtab : r ∈ table := (List.mem_filter.mp (by
      rw [hone]; exact List.mem_singleton.mpr rfl : r ∈ table.filter _)).1
    have := hpcond r hrtab
    rw [hpx, hrx, hsrc] at this
    simp at this
  rw [hins]
  simp only [List.map_nil, List.map_cons, List.append_nil]
  have hmatch : (stagingMatches staging src r).head? = some (X, pl) := by
    unfold stagingMatches
    rw [if_pos hsrc, hrx, hsingle]
    rfl
  rw [mergeRowUpdate_of_head_some t hmatch]

theorem identInStaging_elim {src : Source} {batch : List Json} {X : String}
    (h : identInStagingB src batch X = true) :
    ∃ staging, extractStagingRows src.idField batch = .ok staging ∧
      staging.any (fun p => decide (p.1 = X)) = true := by
  unfold identInStagingB at h
  cases hex : extractStagingRows src.idField batch with
  | error e =>
      rw [hex] at h
      exact absurd h (by simp)
  | ok rows =>
      rw [hex] at h
      exact ⟨rows, rfl, h⟩

theorem batchNodup_elim {src : Source} {batch : List Json}
    {staging : List (String × Json)}
    (h : batchIdsNodupB src batch = true)
    (hex : extractStagingRows src.idField batch = .ok staging) :
    (staging.map Prod.fst).Nodup := by
  unfold batchIdsNodupB at h
  rw [hex] at h
  simpa using h

theorem batch_nonempty_of_staging {idf : String} {batch : List Json}
    {staging : List (String × Json)}
    (hex : extractStagingRows idf batch = .ok staging) (hne : staging.isEmpty = false) :
    batch.isEmpty = false := by
  cases batch with
  | nil =>
      have : staging = [] := by
        have : extractStagingRows idf [] = .ok ([] : List (String × Json)) := rfl
        rw [this] at hex
        exact (Except.ok.inj hex).symm
      rw [this] at hne
      simp at hne
  | cons a l => rfl

theorem sync_ok_of_merge {src : Source} {batch : List Json} {t : Nat} {st : Store}
    {staging : List (String × Json)} {out : List ExceptionRecord}
    (hb : batch.isEmpty = false)
    (hex : extractStagingRows src.idField batch = .ok staging)
    (hs : staging.isEmpty = false)
    (hm : mergeTable staging src.tag t (st.table src) = .ok out) :
    sync_raw_order_data src batch t st = .ok (st.setTable src out) := by
  rw [sync_eq_merge st hb hex hs, hm]

/-- Claim C9 (confirmed): resolution round-trip.  For a store holding no
record with identity `X` for the given source, three successive merges -
`X` present in the first batch, absent from the second, present in the
third (batches extracting distinct identities so the merges of rounds 1 and
3 succeed; round 2 may even fail, which leaves the state unchanged) -
leave exactly one `X`-record, active, with `resolved_timestamp` null and
`first_seen_timestamp` still the first merge's timestamp. -/
theorem c9_resolution_round_trip (src : Source) (b1 b2 b3 : List Json)
    (t1 t2 t3 : Nat) (st : Store) (X : String)
    (hfresh : (st.table src).all (fun r => !(decide (r.ident = X))) = true)
    (hb1 : batchIdsNodupB src b1 = true)
    (hin1 : identInStagingB src b1 X = true)
    (hnotin2 : identNotInStagingB src b2 X = true)
    (hb3 : batchIdsNodupB src b3 = true)
    (hin3 : identInStagingB src b3 X = true) :
    ∃ r,
      ((syncState src b3 t3 (syncState src b2 t2 (syncState src b1 t1 st))).table
          src).filter (fun rr => decide (rr.ident = X)) = [r] ∧
      r.is_currently_in_exception = true ∧
      r.resolved_timestamp = none ∧
      r.first_seen_timestamp = t1 := by
  -- Round 1: X is inserted fresh.
  obtain ⟨staging1, hex1, hany1⟩ := identInStaging_elim hin1
  have hnodup1 := batchNodup_elim hb1 hex1
  have hs1ne : staging1.isEmpty = false := by
    cases staging1 with
    | nil => simp at hany1
    | cons a l => rfl
  have hb1ne := batch_nonempty_of_staging hex1 hs1ne
  have hm1 := mergeTable_ok_of_nodup hnodup1 src.tag t1 (st.table src)
  have hsync1 := sync_ok_of_merge hb1ne hex1 hs1ne hm1
  have hstate1 := syncState_of_ok hsync1
  obtain ⟨pl1, hfilter1⟩ :=
    @merge_insert_round staging1 src.tag t1 _ _
      (filter_ident_of_all_ne hfresh) hnodup1 hany1
  have hview1 : ((syncState src b1 t1 st).table src).filter
      (fun rr => decide (rr.ident = X)) = [⟨X, pl1, src.tag, t1, t1, true, none⟩] := by
    rw [hstate1, store_table_setTable]
    exact hfilter1
  -- Round 2: X is either resolved, or a failing call leaves it untouched.
  have hround2 : ∃ r2,
      ((syncState src b2 t2 (syncState src b1 t1 st)).table src).filter
        (fun rr => decide (rr.ident = X)) = [r2] ∧
      r2.ident = X ∧ r2.source = src.tag ∧ r2.first_seen_timestamp = t1 := by
    cases h2 : sync_raw_order_data src b2 t2 (syncState src b1 t1 st) with
    | error e =>
        refine ⟨⟨X, pl1, src.tag, t1, t1, true, none⟩, ?_, rfl, rfl, rfl⟩
        rw [syncState_of_error h2]
        exact hview1
    | ok s2 =>
        obtain ⟨staging2, out2, hb2ne, hex2, hs2ne, hm2, hs2eq⟩ := sync_ok_elim h2
        have hany2 : staging2.any (fun p => decide (p.1 = X)) = false := by
          unfold identNotInStagingB at hnotin2
          rw [hex2] at hnotin2
          simpa using hnotin2
        obtain ⟨_, hout2⟩ := mergeTable_ok_elim hm2
        have hview2 : (s2.table src).filter (fun rr => decide (rr.ident = X)) =
            ((((syncState src b1 t1 st).table src).filter
              (fun rr => decide (rr.ident = X))).map
              (mergeRowUpdate staging2 src.tag t2)) := by
          rw [hs2eq, store_table_setTable, hout2]
          exact merge_absent_round hany2
        rw [hview1] at hview2
        have hnomatch : staging2.filter
            (fun p => decide (p.1 =
              (⟨X, pl1, src.tag, t1, t1, true, none⟩ : ExceptionRecord).ident)) = [] := by
          rw [List.filter_eq_nil_iff]
          intro p hp
          have := List.any_eq_false.mp hany2 p hp
          simpa using this
        have hupd := @mergeRowUpdate_no_match _ src.tag t2 _ hnomatch rfl
        refine ⟨⟨X, pl1, src.tag, t1, t1, false, some t2⟩, ?_, rfl, rfl, rfl⟩
        rw [syncState_of_ok h2, hview2]
        simp only [List.map_cons, List.map_nil]
        rw [hupd]
        rfl
  obtain ⟨r2, hview2f, hr2x, hr2src, hr2first⟩ := hround2
  -- Round 3: X reappears and is refreshed in place.
  obtain ⟨staging3, hex3, hany3⟩ := identInStaging_elim hin3
  have hnodup3 := batchNodup_elim hb3 hex3
  have hs3ne : staging3.isEmpty = false := by
    cases staging3 with
    | nil => simp at hany3
    | cons a l => rfl
  have hb3ne := batch_nonempty_of_staging hex3 hs3ne
  have hm3 := mergeTable_ok_of_nodup hnodup3 src.tag t3
    ((syncState src b2 t2 (syncState src b1 t1 st)).table src)
  have hsync3 := sync_ok_of_merge hb3ne hex3 hs3ne hm3
  obtain ⟨pl3, hfilter3⟩ :=
    @merge_update_round staging3 _ t3 _ _ _ hview2f hr2src hnodup3 hany3
  refine ⟨⟨r2.ident, pl3, r2.source, r2.first_seen_timestamp, t3, true, none⟩,
    ?_, rfl, rfl, by simpa using hr2first⟩
  rw [syncState_of_ok hsync3, store_table_setTable]
  exact hfilter3

/-- Witness for the round-trip theorem at a concrete store, identity and
batches. -/
theorem c9_round_trip_witness :
    ((emptyStore.table .stord).all (fun r => !(decide (r.ident = "X1"))) = true) ∧
    (batchIdsNodupB .stord b1C9 = true) ∧
    (identInStagingB .stord b1C9 "X1" = true) ∧
    (identNotInStagingB .stord b2C9 "X1" = true) ∧
    (batchIdsNodupB .stord b3C9 = true) ∧
    (identInStagingB .stord b3C9 "X1" = true) ∧
    (∃ r,
      ((syncState .stord b3C9 30 (syncState .stord b2C9 20
          (syncState .stord b1C9 10 emptyStore))).table .stord).filter
        (fun rr => decide (rr.ident = "X1")) = [r] ∧
      r.is_currently_in_exception = true ∧
      r.resolved_timestamp = none ∧
      r.first_seen_timestamp = 10) :=
  ⟨rfl, rfl, rfl, rfl, rfl, rfl,
    c9_resolution_round_trip .stord b1C9 b2C9 b3C9 10 20 30 emptyStore "X1"
      rfl rfl rfl rfl rfl rfl⟩

/-! ### Analytics: error propagation (claim C7) -/

theorem foldlM_error_absorb {α β : Type} (f : β → α → Except PyErr β) :
    ∀ (l1 l2 : List α) (b : β) (e : PyErr),
      l1.foldlM f b = .error e → (l1 ++ l2).foldlM f b = .error e := by
  intro l1
  induction l1 with
  | nil =>
      intro l2 b e h
      rw [List.foldlM_nil] at h
      exact absurd h (by simp [pure, Except.pure])
  | cons a l ih =>
      intro l2 b e h
      rw [List.foldlM_cons] at h
      rw [List.cons_append, List.foldlM_cons]
      simp only [Except.instMonad, Except.bind, Bind.bind] at h ⊢
      cases hf : f b a with
      | error e2 =>
          rw [hf] at h
          dsimp only at h ⊢
          exact h
      | ok b2 =>
          rw [hf] at h
          dsimp only at h ⊢
          exact ih l2 b2 e h

/-- Claim C7 (amended): an unexpected error while processing one order is
NOT isolated: it aborts the whole aggregation - every later order's
contribution is dropped and the failure surfaces as the same single
aggregation error used for a store failure (the one `except Exception` at
line 173 re-raises everything as one `BigQueryClientError`), with no
partial result.  A store fetch failure likewise surfaces as that single
error. -/
theorem c7_per_order_error_aborts_aggregation :
    (∀ (orders extra : List Json) (e : PyErr),
      processOrders orders = .error e →
      get_full_analytics (.ok (orders ++ extra)) = .error ()) ∧
    (∀ e : PyErr, get_full_analytics (.error e) = .error ()) := by
  constructor
  · intro orders extra e h
    have habs : processOrders (orders ++ extra) = .error e :=
      foldlM_error_absorb processOrder orders extra initState e h
    unfold get_full_analytics
    dsimp only
    rw [habs]
  · intro e
    rfl

/-- Claim C7 as stated is false: with one well-formed order and one
malformed order (a null `sales_order_lines` value makes the per-order loop
raise `TypeError` at `for sol in raw_order.get("sales_order_lines", [])`),
the whole aggregation fails with no partial result - the well-formed
order's contribution, visible when it is processed alone, is lost instead
of being preserved. -/
theorem c7_counterexample_malformed_order_kills_aggregation :
    get_full_analytics (.ok [goodOrderC7, badOrderC7]) = .error () ∧
    (get_full_analytics (.ok [goodOrderC7])).map (fun r => r.sku_frequency) =
      .ok [(Json.str "A", 3)] := by
  refine ⟨rfl, rfl⟩

/-- Witness for the amended C7 theorem at concrete inputs. -/
theorem c7_witness :
    (processOrders [badOrderC7] = .error .typeError) ∧
    (get_full_analytics (.ok ([badOrderC7] ++ [goodOrderC7])) = .error ()) ∧
    (get_full_analytics (.error .attributeError) = .error ()) :=
  ⟨rfl,
    c7_per_order_error_aborts_aggregation.1 [badOrderC7] [goodOrderC7] .typeError rfl,
    c7_per_order_error_aborts_aggregation.2 .attributeError⟩

/-! ### Analytics: per-order chain elimination -/

theorem processOrder_ok_elim {st st2 : AnalyticsState} {raw : Json}
    (htr : pyTruthy raw = true)
    (h : processOrder st raw = .ok st2) :
    ∃ (isStord : Bool) (oos : List Json) (incs : List (Json × ℚ)) (ident : Json)
      (st3 : AnalyticsState) (fac : Json) (sample : Option ℚ),
      pyContains raw (Json.str "sales_order_lines") = .ok isStord ∧
      (if isStord then get_stord_oos_skus raw else get_shipbob_oos_skus raw) = .ok oos ∧
      (if isStord then stordFreqIncrements oos raw
        else shipbobFreqIncrements oos raw) = .ok incs ∧
      customerIdentifier isStord raw = .ok ident ∧
      applyCustomer
        { st with sku_frequency := applyIncs st.sku_frequency incs,
                  partner_counts :=
                    bumpCount st.partner_counts (if isStord then "stord" else "shipbob") }
        ident = .ok st3 ∧
      facilityOf isStord raw = .ok fac ∧
      resolutionSample raw = .ok sample ∧
      st2 = applyResolution
        (applyFacility st3 (if isStord then "stord" else "shipbob") fac)
        (if isStord then "stord" else "shipbob") sample := by
  unfold processOrder at h
  rw [if_pos htr] at h
  simp only [Except.instMonad, Except.bind, Bind.bind] at h
  cases hc : pyContains raw (Json.str "sales_order_lines") with
  | error e =>
      rw [hc] at h
      exact absurd h (by simp)
  | ok isStord =>
      rw [hc] at h
      dsimp only at h
      cases isStord with
      | true =>
          cases hcls : get_stord_oos_skus raw with
          | error e =>
              rw [hcls] at h
              exact absurd h (by simp)
          | ok oos =>
              rw [hcls] at h
              dsimp only at h
              cases hincs : stordFreqIncrements oos raw with
              | error e =>
                  rw [hincs] at h
                  exact absurd h (by simp)
              | ok incs =>
                  rw [hincs] at h
                  dsimp only at h
                  cases hid : customerIdentifier true raw with
                  | error e =>
                      rw [hid] at h
                      exact absurd h (by simp)
                  | ok ident =>
                      rw [hid] at h
                      dsimp only at h
                      cases hac : applyCustomer
                          { st with sku_frequency := applyIncs st.sku_frequency incs,
                                    partner_counts :=
                                      bumpCount st.partner_counts
                                        (if true then "stord" else "shipbob") } ident with
                      | error e =>
                          rw [hac] at h
                          exact absurd h (by simp)
                      | ok st3 =>
                          rw [hac] at h
                          dsimp only at h
                          cases hfac : facilityOf true raw with
                          | error e =>
                              rw [hfac] at h
                              exact absurd h (by simp)
                          | ok fac =>
                              rw [hfac] at h
                              dsimp only at h
                              cases hres : resolutionSample raw with
                              | error e =>
                                  rw [hres] at h
                                  exact absurd h (by simp)
                              | ok sample =>
                                  rw [hres] at h
                                  simp only [pure, Except.pure] at h
                                  exact ⟨true, oos, incs, ident, st3, fac, sample,
                                    rfl, rfl, hincs, hid, hac, hfac, rfl,
                                    (Except.ok.inj h).symm⟩
      | false =>
          cases hcls : get_shipbob_oos_skus raw with
          | error e =>
              rw [hcls] at h
              exact absurd h (by simp)
          | ok oos =>
              rw [hcls] at h
              dsimp only at h
              cases hincs : shipbobFreqIncrements oos raw with
              | error e =>
                  rw [hincs] at h
                  exact absurd h (by simp)
              | ok incs =>
                  rw [hincs] at h
                  dsimp only at h
                  cases hid : customerIdentifier false raw with
                  | error e =>
                      rw [hid] at h
                      exact absurd h (by simp)
                  | ok ident =>
                      rw [hid] at h
                      dsimp only at h
                      cases hac : applyCustomer
                          { st with sku_frequency := applyIncs st.sku_frequency incs,
                                    partner_counts :=
                                      bumpCount st.partner_counts
                                        (if false then "stord" else "shipbob") } ident with
                      | error e =>
                          rw [hac] at h
                          exact absurd h (by simp)
                      | ok st3 =>
                          rw [hac] at h
                          dsimp only at h
                          cases hfac : facilityOf false raw with
                          | error e =>
                              rw [hfac] at h
                              exact absurd h (by simp)
                          | ok fac =>
                              rw [hfac] at h
                              dsimp only at h
                              cases hres : resolutionSample raw with
                              | error e =>
                                  rw [hres] at h
                                  exact absurd h (by simp)
                              | ok sample =>
                                  rw [hres] at h
                                  simp only [pure, Except.pure] at h
                                  exact ⟨false, oos, incs, ident, st3, fac, sample,
                                    rfl, rfl, hincs, hid, hac, hfac, rfl,
                                    (Except.ok.inj h).symm⟩

theorem processOrder_skip {st : AnalyticsState} {raw : Json}
    (htr : pyTruthy raw = false) : processOrder st raw = .ok st := by
  unfold processOrder
  rw [if_neg (by simp [htr])]
  rfl

theorem applyCustomer_fields {st st2 : AnalyticsState} {i : Json}
    (h : applyCustomer st i = .ok st2) :
    st2.sku_frequency = st.sku_frequency ∧
    st2.resolution_times = st.resolution_times := by
  unfold applyCustomer at h
  by_cases ht : pyTruthy i = true
  · rw [if_pos ht] at h
    cases i <;> simp at h <;> try exact absurd h (by simp)
    · rw [← h]
      exact ⟨rfl, rfl⟩
  · rw [if_neg ht] at h
    rw [← Except.ok.inj h]
    exact ⟨rfl, rfl⟩

theorem applyFacility_fields (st : AnalyticsState) (s : String) (f : Json) :
    (applyFacility st s f).sku_frequency = st.sku_frequency ∧
    (applyFacility st s f).resolution_times = st.resolution_times := by
  unfold applyFacility
  split <;> exact ⟨rfl, rfl⟩

theorem applyResolution_sku (st : AnalyticsState) (s : String) (o : Option ℚ) :
    (applyResolution st s o).sku_frequency = st.sku_frequency := by
  cases o <;> rfl

theorem shipbobFreqIncrements_no_products {oos : List Json} {raw : Json}
    {incs : List (Json × ℚ)}
    (hnoprod : raw.lookup "products" = none)
    (h : shipbobFreqIncrements oos raw = .ok incs) : incs = [] := by
  unfold shipbobFreqIncrements at h
  cases raw with
  | obj fs =>
      simp only [Except.instMonad, Except.bind, Bind.bind, pyGetD] at h
      rw [show (Json.obj fs).lookup "products" = none from hnoprod] at h
      simp only [Option.getD, pyIter, List.foldlM] at h
      simpa using (Except.ok.inj h).symm
  | null => exact absurd h (by simp [pyGetD, Except.instMonad, Except.bind, Bind.bind])
  | bool b => exact absurd h (by simp [pyGetD, Except.instMonad, Except.bind, Bind.bind])
  | num q => exact absurd h (by simp [pyGetD, Except.instMonad, Except.bind, Bind.bind])
  | str s => exact absurd h (by simp [pyGetD, Except.instMonad, Except.bind, Bind.bind])
  | arr xs => exact absurd h (by simp [pyGetD, Except.instMonad, Except.bind, Bind.bind])

/-- Claim C10 (confirmed): the shipbob quantity loop reads only the order's
top-level `products` list; an order whose products sit inside its shipments
only contributes nothing to `sku_frequency` - whatever the OOS classifier
found - while the rest of its processing proceeds. -/
theorem c10_shipbob_frequency_reads_top_level_products_only
    (st st2 : AnalyticsState) (raw : Json)
    (hok : processOrder st raw = .ok st2)
    (hsb : pyContains raw (Json.str "sales_order_lines") = .ok false)
    (hnoprod : raw.lookup "products" = none) :
    st2.sku_frequency = st.sku_frequency := by
  by_cases htr : pyTruthy raw = true
  · obtain ⟨isStord, oos, incs, ident, st3, fac, sample,
      hc, hcls, hincs, hid, hac, hfac, hres, hfinal⟩ := processOrder_ok_elim htr hok
    have hsb2 : isStord = false := by
      rw [hc] at hsb
      exact Except.ok.inj hsb
    subst hsb2
    rw [if_neg (by simp)] at hincs
    have hincs0 : incs = [] := shipbobFreqIncrements_no_products hnoprod hincs
    subst hincs0
    have hmid : ({ st with
                    sku_frequency := applyIncs st.sku_frequency [],
                    partner_counts := bumpCount st.partner_counts
                      (if false then "stord" else "shipbob") } :
        AnalyticsState).sku_frequency = st.sku_frequency := rfl
    obtain ⟨hsk3, _⟩ := applyCustomer_fields hac
    rw [hfinal, applyResolution_sku,
      (applyFacility_fields st3 (if false then "stord" else "shipbob") fac).1,
      hsk3, hmid]
  · have := @processOrder_skip st raw (by simpa using htr)
    rw [this] at hok
    rw [← Except.ok.inj hok]

/-- Witness for C10: a shipbob order whose only products (with an
OutOfStock classification hit) sit inside its shipment contributes nothing
to `sku_frequency`, even though the classifier returns a non-empty set. -/
theorem c10_witness :
    (pyContains orderC10 (Json.str "sales_order_lines") = .ok false) ∧
    (orderC10.lookup "products" = none) ∧
    (get_shipbob_oos_skus orderC10 = .ok [Json.str "P"]) ∧
    (processOrder initState orderC10 = .ok stateC10) ∧
    stateC10.sku_frequency = initState.sku_frequency :=
  ⟨rfl, rfl, rfl, rfl,
    c10_shipbob_frequency_reads_top_level_products_only initState stateC10 orderC10
      rfl rfl rfl⟩

/-! ### Analytics: average resolution time per source (claim C8) -/

theorem find_isSome_eq_any {α : Type} (p : α → Bool) (l : List α) :
    (l.find? p).isSome = l.any p := by
  induction l with
  | nil => rfl
  | cons a t ih =>
      rw [List.find?_cons, List.any_cons]
      cases hp : p a
      · simpa using ih
      · rfl

theorem pyContains_obj_key (fs : List (String × Json)) (k : String) :
    pyContains (Json.obj fs) (Json.str k) = .ok (jHasKey (Json.obj fs) k) := by
  unfold pyContains jHasKey Json.lookup
  rw [Option.isSome_map', find_isSome_eq_any]
  rfl

theorem pyTimestampQ_numQOf {v : Json} {q : ℚ} (h : pyTimestampQ v = .ok q) :
    numQOf v = some q := by
  cases v <;> simp [pyTimestampQ] at h <;> simp [numQOf, h]

theorem resolutionSample_spec {fs : List (String × Json)} {s : Option ℚ}
    (h : resolutionSample (Json.obj fs) = .ok s) :
    s = specSampleOf (Json.obj fs) := by
  unfold resolutionSample at h
  simp only [Except.instMonad, Except.bind, Bind.bind,
    show pyGet (Json.obj fs) "resolved_timestamp" =
      .ok (jGet (Json.obj fs) "resolved_timestamp") from rfl,
    show pyGet (Json.obj fs) "first_seen_timestamp" =
      .ok (jGet (Json.obj fs) "first_seen_timestamp") from rfl] at h
  unfold specSampleOf
  by_cases htr : pyTruthy (jGet (Json.obj fs) "resolved_timestamp") = true ∧
      pyTruthy (jGet (Json.obj fs) "first_seen_timestamp") = true
  · rw [if_pos htr] at h ⊢
    cases hr : pyTimestampQ (jGet (Json.obj fs) "resolved_timestamp") with
    | error e =>
        rw [hr] at h
        exact absurd h (by simp)
    | ok rq =>
        rw [hr] at h
        dsimp only at h
        cases hf : pyTimestampQ (jGet (Json.obj fs) "first_seen_timestamp") with
        | error e =>
            rw [hf] at h
            exact absurd h (by simp)
        | ok fq =>
            rw [hf] at h
            simp only [pure, Except.pure] at h
            rw [pyTimestampQ_numQOf hr, pyTimestampQ_numQOf hf]
            exact (Except.ok.inj h).symm
  · rw [if_neg htr] at h ⊢
    simp only [pure, Except.pure] at h
    exact (Except.ok.inj h).symm

theorem processOrder_resolution_times {st st2 : AnalyticsState} {raw : Json}
    (h : processOrder st raw = .ok st2) :
    st2.resolution_times =
      if pyTruthy raw = true then
        match specSampleOf raw with
        | some d => appendTime st.resolution_times (sourceTagOf raw) d
        | none => st.resolution_times
      else st.resolution_times := by
  by_cases htr : pyTruthy raw = true
  · rw [if_pos htr]
    obtain ⟨isStord, oos, incs, ident, st3, fac, sample,
      hc, hcls, hincs, hid, hac, hfac, hres, hfinal⟩ := processOrder_ok_elim htr h
    cases raw with
    | null => simp [pyTruthy] at htr
    | bool b =>
        rw [show pyContains (Json.bool b) (Json.str "sales_order_lines") =
          .error .typeError from rfl] at hc
        exact absurd hc (by simp)
    | num q =>
        rw [show pyContains (Json.num q) (Json.str "sales_order_lines") =
          .error .typeError from rfl] at hc
        exact absurd hc (by simp)
    | str s =>
        cases isStord with
        | true =>
            rw [if_pos rfl,
              show get_stord_oos_skus (Json.str s) = .error .attributeError from rfl]
              at hcls
            exact absurd hcls (by simp)
        | false =>
            rw [if_neg (by simp),
              show get_shipbob_oos_skus (Json.str s) = .error .attributeError from rfl]
              at hcls
            exact absurd hcls (by simp)
    | arr xs =>
        cases isStord with
        | true =>
            rw [if_pos rfl,
              show get_stord_oos_skus (Json.arr xs) = .error .attributeError from rfl]
              at hcls
            exact absurd hcls (by simp)
        | false =>
            rw [if_neg (by simp),
              show get_shipbob_oos_skus (Json.arr xs) = .error .attributeError from rfl]
              at hcls
            exact absurd hcls (by simp)
    | obj fs =>
        have hkey : isStord = jHasKey (Json.obj fs) "sales_order_lines" := by
          rw [pyContains_obj_key fs "sales_order_lines"] at hc
          exact (Except.ok.inj hc).symm
        have hsrc : (if isStord then "stord" else "shipbob") = sourceTagOf (Json.obj fs) := by
          rw [hkey]
          rfl
        have hsample : sample = specSampleOf (Json.obj fs) := resolutionSample_spec hres
        obtain ⟨-, hrt3⟩ := applyCustomer_fields hac
        rw [hfinal, ← hsample]
        cases sample with
        | some d =>
            show appendTime (applyFacility st3 _ fac).resolution_times _ d = _
            rw [(applyFacility_fields st3 _ fac).2, hrt3, hsrc]
        | none =>
            show (applyFacility st3 _ fac).resolution_times = _
            rw [(applyFacility_fields st3 _ fac).2, hrt3]
  · rw [if_neg htr]
    have := @processOrder_skip st raw (by simpa using htr)
    rw [this] at h
    rw [← Except.ok.inj h]

theorem find_map_keyed {α β : Type} (g : String × α → β) (s : String) :
    ∀ m : List (String × α),
      (m.map (fun p => (p.1, g p))).find? (fun p => decide (p.1 = s)) =
        (m.find? (fun p => decide (p.1 = s))).map (fun p => (p.1, g p)) := by
  intro m
  induction m with
  | nil => rfl
  | cons p t ih =>
      simp only [List.map_cons, List.find?_cons]
      cases hd : decide (p.1 = s)
      · simpa [hd] using ih
      · rfl

theorem appendTime_update_as_keyed (m : List (String × List ℚ)) (k : String)
    (v : ℚ) :
    m.map (fun p => if p.1 = k then (p.1, p.2 ++ [v]) else p) =
      m.map (fun p => (p.1, if p.1 = k then p.2 ++ [v] else p.2)) :=
  List.map_congr_left (fun p _ => by by_cases h : p.1 = k <;> simp [h])

theorem rtLookup_map_update (m : List (String × List ℚ)) (k : String) (v : ℚ)
    (s : String) :
    rtLookup (m.map (fun p => if p.1 = k then (p.1, p.2 ++ [v]) else p)) s =
      if s = k ∧ rtHas m s = true then rtLookup m s ++ [v] else rtLookup m s := by
  unfold rtLookup
  rw [appendTime_update_as_keyed, find_map_keyed]
  cases hfm : m.find? (fun p => decide (p.1 = s)) with
  | none =>
      have hh : rtHas m s = false := by
        unfold rtHas
        rw [← find_isSome_eq_any, hfm]
        rfl
      simp [hh]
  | some p =>
      have hp1 : p.1 = s := by simpa using List.find?_some hfm
      have hh : rtHas m s = true := by
        unfold rtHas
        rw [← find_isSome_eq_any, hfm]
        rfl
      by_cases hsk : s = k
      · simp [hsk, hp1.trans hsk, show rtHas m k = true from hsk ▸ hh]
      · simp [hh, hsk, show ¬ p.1 = k from fun hc => hsk (hp1.symm.trans hc)]

theorem rtHas_map_update (m : List (String × List ℚ)) (k : String) (v : ℚ)
    (s : String) :
    rtHas (m.map (fun p => if p.1 = k then (p.1, p.2 ++ [v]) else p)) s =
      rtHas m s := by
  unfold rtHas
  rw [← find_isSome_eq_any, ← find_isSome_eq_any, appendTime_update_as_keyed,
    find_map_keyed]
  rw [Option.isSome_map']

theorem rtLookup_appendTime (m : List (String × List ℚ)) (k : String) (v : ℚ)
    (s : String) :
    rtLookup (appendTime m k v) s =
      if s = k then rtLookup m s ++ [v] else rtLookup m s := by
  unfold appendTime
  by_cases hk : m.any (fun p => decide (p.1 = k)) = true
  · rw [if_pos hk, rtLookup_map_update]
    by_cases hsk : s = k
    · rw [if_pos ⟨hsk, by unfold rtHas; rw [hsk]; exact hk⟩, if_pos hsk]
    · rw [if_neg (by tauto), if_neg hsk]
  · rw [if_neg hk]
    unfold rtLookup
    rw [List.find?_append]
    by_cases hsk : s = k
    · have hnone : m.find? (fun p => decide (p.1 = s)) = none := by
        rw [List.find?_eq_none]
        intro x hx
        simp only [decide_eq_true_eq]
        intro hxs
        exact hk (List.any_eq_true.mpr ⟨x, hx, by simp [hxs, ← hsk]⟩)
      rw [hnone]
      simp [List.find?_cons, hsk]
    · cases hfm : m.find? (fun p => decide (p.1 = s)) with
      | some p => simp [hfm, hsk]
      | none =>
          have : ¬ (k = s) := fun hc => hsk hc.symm
          simp [List.find?_cons, hsk, this]

theorem rtHas_appendTime (m : List (String × List ℚ)) (k : String) (v : ℚ)
    (s : String) :
    rtHas (appendTime m k v) s = (rtHas m s || decide (s = k)) := by
  unfold appendTime
  by_cases hk : m.any (fun p => decide (p.1 = k)) = true
  · rw [if_pos hk, rtHas_map_update]
    by_cases hsk : s = k
    · have hh : rtHas m s = true := by
        unfold rtHas
        rw [hsk]
        exact hk
      simp [hh]
    · simp [hsk]
  · rw [if_neg hk]
    unfold rtHas
    rw [List.any_append]
    simp [List.any_cons, eq_comm]

theorem specSamples_cons (o : Json) (t : List Json) (s : String) :
    specSamples (o :: t) s =
      (if pyTruthy o = true ∧ sourceTagOf o = s then
        match specSampleOf o with
        | some d => [d]
        | none => []
       else []) ++ specSamples t s := by
  unfold specSamples
  rw [List.filterMap_cons]
  by_cases h : pyTruthy o = true ∧ sourceTagOf o = s
  · cases hd : specSampleOf o <;> simp [h, hd]
  · simp [h]

theorem processOrders_rt_inv (orders : List Json) :
    ∀ st0 st : AnalyticsState,
      orders.foldlM processOrder st0 = .ok st →
      ∀ s : String,
        rtLookup st.resolution_times s =
            rtLookup st0.resolution_times s ++ specSamples orders s ∧
          rtHas st.resolution_times s =
            (rtHas st0.resolution_times s || !(specSamples orders s).isEmpty) := by
  induction orders with
  | nil =>
      intro st0 st h s
      have hst : st0 = st := Except.ok.inj h
      subst hst
      simp [specSamples]
  | cons o t ih =>
      intro st0 st h s
      rw [List.foldlM_cons] at h
      cases h1 : processOrder st0 o with
      | error e =>
          rw [h1] at h
          exact absurd h (by simp [Bind.bind, Except.bind])
      | ok st1 =>
          rw [h1] at h
          simp only [Bind.bind, Except.bind] at h
          obtain ⟨ihl, ihh⟩ := ih st1 st h s
          have hrt := processOrder_resolution_times h1
          rw [specSamples_cons]
          by_cases htr : pyTruthy o = true
          · rw [if_pos htr] at hrt
            cases hd : specSampleOf o with
            | none =>
                rw [hd] at hrt
                constructor
                · rw [ihl, hrt]
                  by_cases hc : pyTruthy o = true ∧ sourceTagOf o = s <;>
                    simp [hc, hd]
                · rw [ihh, hrt]
                  by_cases hc : pyTruthy o = true ∧ sourceTagOf o = s <;>
                    simp [hc, hd]
            | some d =>
                rw [hd] at hrt
                by_cases hts : sourceTagOf o = s
                · constructor
                  · rw [ihl, hrt, rtLookup_appendTime]
                    simp [hts, htr, hd]
                  · rw [ihh, hrt, rtHas_appendTime]
                    simp [hts, htr, hd, Bool.or_assoc]
                · constructor
                  · rw [ihl, hrt, rtLookup_appendTime]
                    have : ¬ (s = sourceTagOf o) := fun hc => hts hc.symm
                    simp [hts, this]
                  · rw [ihh, hrt, rtHas_appendTime]
                    have : ¬ (s = sourceTagOf o) := fun hc => hts hc.symm
                    simp [hts, this]
          · rw [if_neg htr] at hrt
            have hcn : ¬ (pyTruthy o = true ∧ sourceTagOf o = s) :=
              fun hc => htr hc.1
            constructor
            · rw [ihl, hrt]
              simp [hcn]
            · rw [ihh, hrt]
              simp [hcn]

theorem lookupA_avgResolution (rt : List (String × List ℚ)) (s : String) :
    lookupA s (avgResolution rt) =
      (rt.find? (fun p => decide (p.1 = s))).map
        (fun p =>
          if p.2.isEmpty then 0
          else pyRound2 (p.2.sum / (p.2.length : ℚ))) := by
  unfold lookupA avgResolution
  rw [find_map_keyed]
  cases rt.find? (fun p => decide (p.1 = s)) <;> rfl

theorem rt_find_eq (rt : List (String × List ℚ)) (s : String) :
    rt.find? (fun p => decide (p.1 = s)) =
      if rtHas rt s = true then some (s, rtLookup rt s) else none := by
  cases hf : rt.find? (fun p => decide (p.1 = s)) with
  | none =>
      have hh : rtHas rt s = false := by
        unfold rtHas
        rw [← find_isSome_eq_any, hf]
        rfl
      simp [hh]
  | some p =>
      obtain ⟨p1, p2⟩ := p
      have hp1 : p1 = s := by simpa using List.find?_some hf
      have hh : rtHas rt s = true := by
        unfold rtHas
        rw [← find_isSome_eq_any, hf]
        rfl
      have hp2 : rtLookup rt s = p2 := by
        unfold rtLookup
        rw [hf]
        rfl
      rw [if_pos hh, hp2, ← hp1]

/-- C8: for every order list the aggregation accepts, the reported
`average_resolution_time_hours` maps a source string to the 2-decimal
rounding of the arithmetic mean of that source's resolution samples when it
has at least one sample, and OMITS the source entirely (lookup `none`) when
it has none: `resolution_times` is a `defaultdict(list)` whose keys are
created only by appending a sample, so the comprehension at line 163 never
sees an empty list and the claimed zero-sample value 0 is never reported. -/
theorem c8_average_resolution_per_source {orders : List Json}
    {res : AnalyticsResult} (s : String)
    (h : get_full_analytics (.ok orders) = .ok res) :
    lookupA s res.average_resolution_time_hours =
      if (specSamples orders s).isEmpty then none
      else
        some (pyRound2 ((specSamples orders s).sum /
          ((specSamples orders s).length : ℚ))) := by
  unfold get_full_analytics at h
  dsimp only at h
  cases hp : processOrders orders with
  | error e =>
      rw [hp] at h
      exact absurd h (by simp)
  | ok st =>
      rw [hp] at h
      have hres : res = formatResult st := (Except.ok.inj h).symm
      subst hres
      obtain ⟨hl, hh⟩ := processOrders_rt_inv orders initState st hp s
      rw [show rtLookup initState.resolution_times s = [] from rfl] at hl
      rw [show rtHas initState.resolution_times s = false from rfl] at hh
      rw [List.nil_append] at hl
      rw [Bool.false_or] at hh
      show lookupA s (avgResolution st.resolution_times) = _
      rw [lookupA_avgResolution, rt_find_eq, hh, hl]
      cases hsE : (specSamples orders s).isEmpty
      · have hne : specSamples orders s ≠ [] := by simpa using hsE
        simp [hsE, hne]
      · simp [hsE]

/-- C8 counterexample: `ordersC8` holds one stord order resolved in exactly
one hour and one shipbob order with no resolution fields; the claim says the
result maps shipbob to 0, but the code omits shipbob from
`average_resolution_time_hours` altogether (lookup `none`). -/
theorem c8_counterexample_zero_sample_source_omitted :
    (get_full_analytics (.ok ordersC8)).map
        (fun r => (lookupA "shipbob" r.average_resolution_time_hours,
          lookupA "stord" r.average_resolution_time_hours)) =
      .ok ((none : Option ℚ), some 1) := by decide

/-- C8 witness: the theorem applied to `ordersC8` for both sources; stord
has the single sample 1 hour (mean 1), shipbob has none and is omitted. -/
theorem c8_avg_witness :
    get_full_analytics (.ok ordersC8) = .ok (formatResult stateC8) ∧
    lookupA "shipbob" (formatResult stateC8).average_resolution_time_hours =
      (if (specSamples ordersC8 "shipbob").isEmpty then none
       else
        some (pyRound2 ((specSamples ordersC8 "shipbob").sum /
          ((specSamples ordersC8 "shipbob").length : ℚ)))) :=
  ⟨rfl, c8_average_resolution_per_source "shipbob" rfl⟩

theorem foldlM_ok_eq {α β : Type} {f : β → α → Except PyErr β}
    {g : β → α → β} (hstep : ∀ b x b2, f b x = .ok b2 → b2 = g b x) :
    ∀ (xs : List α) (b out : β), xs.foldlM f b = .ok out → out = xs.foldl g b := by
  intro xs
  induction xs with
  | nil =>
      intro b out h
      exact (Except.ok.inj h).symm
  | cons x t ih =>
      intro b out h
      rw [List.foldlM_cons] at h
      cases h1 : f b x with
      | error e =>
          rw [h1] at h
          exact absurd h (by simp [Bind.bind, Except.bind])
      | ok b1 =>
          rw [h1] at h
          simp only [Bind.bind, Except.bind] at h
          rw [List.foldl_cons, ← hstep b x b1 h1]
          exact ih b1 out h

theorem foldlM_cons_error {α β : Type} {f : β → α → Except PyErr β} {b : β}
    {x : α} {t : List α} {e : PyErr} (hx : f b x = .error e) :
    (x :: t).foldlM f b = .error e := by
  rw [List.foldlM_cons, hx]
  rfl

theorem stord_sku_step {oli : Json} {acc acc2 : List Json}
    (h : (do
        let sku ← pyGet oli "item_sku"
        if pyTruthy sku then pySetAdd acc sku else pure acc) = Except.ok acc2) :
    acc2 =
      (if pyTruthy (jGet oli "item_sku") = true ∧ jGet oli "item_sku" ∉ acc
       then acc ++ [jGet oli "item_sku"] else acc) := by
  cases oli with
  | obj fs =>
      simp only [Except.instMonad, Except.bind, Bind.bind,
        show pyGet (Json.obj fs) "item_sku" =
          .ok (jGet (Json.obj fs) "item_sku") from rfl] at h
      by_cases ht : pyTruthy (jGet (Json.obj fs) "item_sku") = true
      · rw [if_pos ht] at h
        unfold pySetAdd at h
        by_cases hh : pyHashable (jGet (Json.obj fs) "item_sku") = true
        · rw [if_pos hh] at h
          have hv := Except.ok.inj h
          by_cases hmem : jGet (Json.obj fs) "item_sku" ∈ acc
          · rw [if_pos hmem] at hv
            rw [← hv, if_neg (by tauto)]
          · rw [if_neg hmem] at hv
            rw [← hv, if_pos ⟨ht, hmem⟩]
        · rw [if_neg hh] at h
          exact absurd h (by simp)
      · rw [if_neg ht] at h
        simp only [pure, Except.pure] at h
        rw [← Except.ok.inj h, if_neg (by tauto)]
  | null =>
      exact absurd h (by simp [pyGet, pyGetD, Except.instMonad, Except.bind,
        Bind.bind])
  | bool b =>
      exact absurd h (by simp [pyGet, pyGetD, Except.instMonad, Except.bind,
        Bind.bind])
  | num q =>
      exact absurd h (by simp [pyGet, pyGetD, Except.instMonad, Except.bind,
        Bind.bind])
  | str s =>
      exact absurd h (by simp [pyGet, pyGetD, Except.instMonad, Except.bind,
        Bind.bind])
  | arr xs =>
      exact absurd h (by simp [pyGet, pyGetD, Except.instMonad, Except.bind,
        Bind.bind])

theorem pyfold_list_field_spec {o : Json} {β : Type} (k : String)
    {step : β → Json → Except PyErr β} {g : β → Json → β} {init out : β}
    (hstep : ∀ b x b2, step b x = .ok b2 → b2 = g b x)
    (hstr : ∀ (b : β) (s : String), step b (Json.str s) = .error .attributeError)
    (h : (do
        let v ← pyGetD o k (.arr [])
        let l ← pyIter v
        l.foldlM step init) = Except.ok out) :
    out = (jList (jGet o k)).foldl g init := by
  cases o with
  | obj fs =>
      simp only [Except.instMonad, Except.bind, Bind.bind,
        show pyGetD (Json.obj fs) k (.arr []) =
          .ok (((Json.obj fs).lookup k).getD (.arr [])) from rfl] at h
      cases hlk : (Json.obj fs).lookup k with
      | none =>
          rw [hlk] at h
          rw [show pyIter (Option.getD none (Json.arr [])) =
            .ok ([] : List Json) from rfl] at h
          dsimp only at h
          rw [List.foldlM_nil] at h
          have hspec : jList (jGet (Json.obj fs) k) = [] := by
            unfold jGet
            rw [hlk]
            rfl
          rw [hspec, List.foldl_nil]
          exact (Except.ok.inj h).symm
      | some v =>
          rw [hlk] at h
          have hspec : jGet (Json.obj fs) k = v := by
            unfold jGet
            rw [hlk]
            rfl
          rw [hspec]
          dsimp only [Option.getD] at h
          cases v with
          | arr xs =>
              rw [show pyIter (Json.arr xs) = .ok xs from rfl] at h
              dsimp only at h
              rw [show jList (Json.arr xs) = xs from rfl]
              exact foldlM_ok_eq hstep xs init out h
          | null =>
              rw [show pyIter Json.null =
                (.error .typeError : Except PyErr (List Json)) from rfl] at h
              dsimp only at h
              exact absurd h (by simp)
          | bool b =>
              rw [show pyIter (Json.bool b) =
                (.error .typeError : Except PyErr (List Json)) from rfl] at h
              dsimp only at h
              exact absurd h (by simp)
          | num q =>
              rw [show pyIter (Json.num q) =
                (.error .typeError : Except PyErr (List Json)) from rfl] at h
              dsimp only at h
              exact absurd h (by simp)
          | str s =>
              obtain ⟨cs⟩ := s
              cases cs with
              | nil =>
                  rw [show pyIter (Json.str (String.mk [])) =
                    .ok ([] : List Json) from rfl] at h
                  dsimp only at h
                  rw [List.foldlM_nil] at h
                  rw [show jList (Json.str (String.mk [])) = [] from rfl,
                    List.foldl_nil]
                  exact (Except.ok.inj h).symm
              | cons c cs2 =>
                  rw [show pyIter (Json.str (String.mk (c :: cs2))) =
                    .ok (Json.str (String.mk [c]) ::
                      cs2.map (fun d => Json.str (String.mk [d]))) from rfl] at h
                  dsimp only at h
                  rw [foldlM_cons_error (hstr init (String.mk [c]))] at h
                  exact absurd h (by simp)
          | obj gs =>
              cases gs with
              | nil =>
                  rw [show pyIter (Json.obj []) =
                    .ok ([] : List Json) from rfl] at h
                  dsimp only at h
                  rw [List.foldlM_nil] at h
                  rw [show jList (Json.obj []) = [] from rfl, List.foldl_nil]
                  exact (Except.ok.inj h).symm
              | cons p gs2 =>
                  rw [show pyIter (Json.obj (p :: gs2)) =
                    .ok (Json.str p.1 ::
                      gs2.map (fun q => Json.str q.1)) from rfl] at h
                  dsimp only at h
                  rw [foldlM_cons_error (hstr init p.1)] at h
                  exact absurd h (by simp)
  | null =>
      exact absurd h (by simp [pyGetD, Except.instMonad, Except.bind, Bind.bind])
  | bool b =>
      exact absurd h (by simp [pyGetD, Except.instMonad, Except.bind, Bind.bind])
  | num q =>
      exact absurd h (by simp [pyGetD, Except.instMonad, Except.bind, Bind.bind])
  | str s =>
      exact absurd h (by simp [pyGetD, Except.instMonad, Except.bind, Bind.bind])
  | arr xs =>
      exact absurd h (by simp [pyGetD, Except.instMonad, Except.bind, Bind.bind])

theorem stord_outer_step {sol : Json} {acc acc2 : List Json}
    (h : (do
        let status ← pyGet sol "status"
        if status = Json.str "backordered" then do
          let olis ← pyGetD sol "order_line_items" (.arr [])
          let oliList ← pyIter olis
          oliList.foldlM
            (fun oos oli => do
              let sku ← pyGet oli "item_sku"
              if pyTruthy sku then pySetAdd oos sku else pure oos)
            acc
        else pure acc) = Except.ok acc2) :
    acc2 =
      (if jGet sol "status" = Json.str "backordered" then
        (jList (jGet sol "order_line_items")).foldl
          (fun acc item =>
            let sku := jGet item "item_sku"
            if pyTruthy sku ∧ sku ∉ acc then acc ++ [sku] else acc)
          acc
      else acc) := by
  cases sol with
  | obj fs =>
      simp only [Except.instMonad, Except.bind, Bind.bind,
        show pyGet (Json.obj fs) "status" =
          .ok (jGet (Json.obj fs) "status") from rfl] at h
      by_cases hst : jGet (Json.obj fs) "status" = Json.str "backordered"
      · rw [if_pos hst] at h
        rw [if_pos hst]
        exact pyfold_list_field_spec "order_line_items"
          (fun b x b2 hx => stord_sku_step hx) (fun b s => rfl) h
      · rw [if_neg hst] at h
        rw [if_neg hst]
        simp only [pure, Except.pure] at h
        exact (Except.ok.inj h).symm
  | null =>
      exact absurd h (by simp [pyGet, pyGetD, Except.instMonad, Except.bind,
        Bind.bind])
  | bool b =>
      exact absurd h (by simp [pyGet, pyGetD, Except.instMonad, Except.bind,
        Bind.bind])
  | num q =>
      exact absurd h (by simp [pyGet, pyGetD, Except.instMonad, Except.bind,
        Bind.bind])
  | str s =>
      exact absurd h (by simp [pyGet, pyGetD, Except.instMonad, Except.bind,
        Bind.bind])
  | arr xs =>
      exact absurd h (by simp [pyGet, pyGetD, Except.instMonad, Except.bind,
        Bind.bind])

theorem stord_classifier_spec {raw : Json} {oos : List Json}
    (h : get_stord_oos_skus raw = .ok oos) :
    oos = backorderedSkuSet raw := by
  unfold get_stord_oos_skus at h
  unfold backorderedSkuSet
  exact pyfold_list_field_spec "sales_order_lines"
    (fun b x b2 hx => stord_outer_step hx) (fun b s => rfl) h

theorem stord_inc_item_step {oli : Json} {oos : List Json}
    {acc acc2 : List (Json × ℚ)}
    (h : (do
        let sku ← pyGet oli "item_sku"
        let isOos ← pySetMem sku oos
        if isOos then do
          let q ← pyGet oli "item_quantity"
          if pyTruthy q then
            match pyFloatOf q with
            | some qv => pure (acc ++ [(sku, qv)])
            | none => pure (acc ++ [(sku, 0)])
          else pure acc
        else pure acc) = Except.ok acc2) :
    acc2 = acc ++ itemInc oos oli := by
  cases oli with
  | obj fs =>
      simp only [Except.instMonad, Except.bind, Bind.bind,
        show pyGet (Json.obj fs) "item_sku" =
          .ok (jGet (Json.obj fs) "item_sku") from rfl,
        show pyGet (Json.obj fs) "item_quantity" =
          .ok (jGet (Json.obj fs) "item_quantity") from rfl] at h
      unfold pySetMem at h
      by_cases hh : pyHashable (jGet (Json.obj fs) "item_sku") = true
      · rw [if_pos hh] at h
        dsimp only at h
        by_cases hm : jGet (Json.obj fs) "item_sku" ∈ oos
        · rw [decide_eq_true hm] at h
          rw [if_pos rfl] at h
          by_cases ht : pyTruthy (jGet (Json.obj fs) "item_quantity") = true
          · rw [if_pos ht] at h
            cases hp : pyFloatOf (jGet (Json.obj fs) "item_quantity") with
            | some qv =>
                rw [hp] at h
                simp only [pure, Except.pure] at h
                have hit : itemInc oos (Json.obj fs) =
                    [(jGet (Json.obj fs) "item_sku", qv)] := by
                  dsimp only [itemInc]
                  rw [if_pos hm, if_pos ht, hp]
                rw [hit, ← Except.ok.inj h]
            | none =>
                rw [hp] at h
                simp only [pure, Except.pure] at h
                have hit : itemInc oos (Json.obj fs) =
                    [(jGet (Json.obj fs) "item_sku", 0)] := by
                  dsimp only [itemInc]
                  rw [if_pos hm, if_pos ht, hp]
                rw [hit, ← Except.ok.inj h]
          · rw [if_neg ht] at h
            simp only [pure, Except.pure] at h
            have hit : itemInc oos (Json.obj fs) = [] := by
              dsimp only [itemInc]
              rw [if_pos hm, if_neg ht]
            rw [hit, List.append_nil, ← Except.ok.inj h]
        · rw [decide_eq_false hm] at h
          rw [if_neg (by simp)] at h
          simp only [pure, Except.pure] at h
          have hit : itemInc oos (Json.obj fs) = [] := by
            dsimp only [itemInc]
            rw [if_neg hm]
          rw [hit, List.append_nil, ← Except.ok.inj h]
      · rw [if_neg hh] at h
        exact absurd h (by simp)
  | null =>
      exact absurd h (by simp [pyGet, pyGetD, Except.instMonad, Except.bind,
        Bind.bind])
  | bool b =>
      exact absurd h (by simp [pyGet, pyGetD, Except.instMonad, Except.bind,
        Bind.bind])
  | num q =>
      exact absurd h (by simp [pyGet, pyGetD, Except.instMonad, Except.bind,
        Bind.bind])
  | str s =>
      exact absurd h (by simp [pyGet, pyGetD, Except.instMonad, Except.bind,
        Bind.bind])
  | arr xs =>
      exact absurd h (by simp [pyGet, pyGetD, Except.instMonad, Except.bind,
        Bind.bind])

theorem stord_inc_sol_step {sol : Json} {oos : List Json}
    {acc acc2 : List (Json × ℚ)}
    (h : (do
        let olis ← pyGetD sol "order_line_items" (.arr [])
        let oliList ← pyIter olis
        oliList.foldlM
          (fun incs item => do
            let sku ← pyGet item "item_sku"
            let isOos ← pySetMem sku oos
            if isOos then do
              let q ← pyGet item "item_quantity"
              if pyTruthy q then
                match pyFloatOf q with
                | some qv => pure (incs ++ [(sku, qv)])
                | none => pure (incs ++ [(sku, 0)])
              else pure incs
            else pure incs)
          acc) = Except.ok acc2) :
    acc2 =
      (jList (jGet sol "order_line_items")).foldl
        (fun incs item => incs ++ itemInc oos item) acc :=
  pyfold_list_field_spec "order_line_items"
    (fun b x b2 hx => stord_inc_item_step hx) (fun b s => rfl) h

theorem stordFreqIncrements_spec {raw : Json} {oos : List Json}
    {incs : List (Json × ℚ)}
    (h : stordFreqIncrements oos raw = .ok incs) :
    incs = specIncList oos raw := by
  unfold stordFreqIncrements at h
  unfold specIncList
  exact pyfold_list_field_spec "sales_order_lines"
    (fun b x b2 hx => stord_inc_sol_step hx) (fun b s => rfl) h

theorem incTotal_nil (k : Json) : incTotal [] k = 0 := rfl

theorem incTotal_append (a b : List (Json × ℚ)) (k : Json) :
    incTotal (a ++ b) k = incTotal a k + incTotal b k := by
  simp [incTotal, List.filter_append]

theorem incTotal_singleton (sk : Json) (v : ℚ) (k : Json) :
    incTotal [(sk, v)] k = if sk = k then v else 0 := by
  by_cases h : sk = k <;> simp [incTotal, List.filter_cons, h]

theorem incTotal_foldl_append {α : Type} (f : α → List (Json × ℚ)) (k : Json) :
    ∀ (l : List α) (acc : List (Json × ℚ)),
      incTotal (l.foldl (fun a x => a ++ f x) acc) k =
        incTotal acc k + (l.map (fun x => incTotal (f x) k)).sum := by
  intro l
  induction l with
  | nil =>
      intro acc
      simp
  | cons x t ih =>
      intro acc
      rw [List.foldl_cons, ih, incTotal_append, List.map_cons, List.sum_cons]
      ring

theorem incTotal_sols_foldl (oos : List Json) (k : Json) :
    ∀ (sols : List Json) (acc : List (Json × ℚ)),
      incTotal
          (sols.foldl
            (fun incs sol =>
              (jList (jGet sol "order_line_items")).foldl
                (fun incs item => incs ++ itemInc oos item) incs)
            acc) k =
        incTotal acc k +
          (sols.map
            (fun sol =>
              ((jList (jGet sol "order_line_items")).map
                (fun item => incTotal (itemInc oos item) k)).sum)).sum := by
  intro sols
  induction sols with
  | nil =>
      intro acc
      simp
  | cons sol t ih =>
      intro acc
      rw [List.foldl_cons, ih, incTotal_foldl_append, List.map_cons,
        List.sum_cons]
      ring

theorem incTotal_itemInc (oos : List Json) (item : Json) (k : Json) :
    incTotal (itemInc oos item) k =
      if jGet item "item_sku" = k ∧ jGet item "item_sku" ∈ oos ∧
          pyTruthy (jGet item "item_quantity") = true then
        match pyFloatOf (jGet item "item_quantity") with
        | some q => q
        | none => 0
      else 0 := by
  dsimp only [itemInc]
  by_cases hm : jGet item "item_sku" ∈ oos
  · rw [if_pos hm]
    by_cases ht : pyTruthy (jGet item "item_quantity") = true
    · rw [if_pos ht]
      cases hp : pyFloatOf (jGet item "item_quantity") with
      | some qv =>
          rw [incTotal_singleton]
          by_cases hs : jGet item "item_sku" = k
          · rw [if_pos hs, if_pos ⟨hs, hm, ht⟩]
          · rw [if_neg hs, if_neg (by tauto)]
      | none =>
          rw [incTotal_singleton]
          by_cases hs : jGet item "item_sku" = k
          · rw [if_pos hs, if_pos ⟨hs, hm, ht⟩]
          · rw [if_neg hs, if_neg (by tauto)]
    · rw [if_neg ht, incTotal_nil, if_neg (by tauto)]
  · rw [if_neg hm, incTotal_nil, if_neg (by tauto)]

theorem incTotal_specIncList (raw : Json) (k : Json) :
    incTotal (specIncList (backorderedSkuSet raw) raw) k =
      if k ∈ backorderedSkuSet raw then allLinesQuantitySum raw k else 0 := by
  unfold specIncList
  rw [incTotal_sols_foldl, incTotal_nil, zero_add]
  by_cases hk : k ∈ backorderedSkuSet raw
  · rw [if_pos hk]
    unfold allLinesQuantitySum
    refine congrArg List.sum (List.map_congr_left (fun sol _ => ?_))
    refine congrArg List.sum (List.map_congr_left (fun item _ => ?_))
    rw [incTotal_itemInc]
    by_cases hs : jGet item "item_sku" = k
    · by_cases ht : pyTruthy (jGet item "item_quantity") = true
      · rw [if_pos ⟨hs, by rw [hs]; exact hk, ht⟩, if_pos ⟨hs, ht⟩]
      · rw [if_neg (by tauto), if_neg (by tauto)]
    · rw [if_neg (by tauto), if_neg (by tauto)]
  · rw [if_neg hk]
    refine List.sum_eq_zero (fun x hx => ?_)
    obtain ⟨sol, _, rfl⟩ := List.mem_map.mp hx
    refine List.sum_eq_zero (fun y hy => ?_)
    obtain ⟨item, _, rfl⟩ := List.mem_map.mp hy
    rw [incTotal_itemInc]
    refine if_neg ?_
    rintro ⟨h1, h2, -⟩
    exact hk (h1 ▸ h2)

/-- C2: corrected per-SKU quantity attribution for a stord order.  For any
raw order on which the classifier and the quantity loop both succeed, the
total amount the order contributes to `sku_frequency` under a sku `k` is the
sum of `item_quantity` over ALL of the order's line items carrying `k` -
whatever parent status - provided `k` appears (truthy) in some backordered
line; the claim's restriction to items under backordered parents is false,
because the quantity loop at lines 93-99 never reads the parent status. -/
theorem c2_stord_quantity_attribution {raw : Json} {oos : List Json}
    {incs : List (Json × ℚ)} (k : Json)
    (hc : get_stord_oos_skus raw = .ok oos)
    (hi : stordFreqIncrements oos raw = .ok incs) :
    incTotal incs k =
      if k ∈ backorderedSkuSet raw then allLinesQuantitySum raw k else 0 := by
  have hoos := stord_classifier_spec hc
  subst hoos
  rw [stordFreqIncrements_spec hi]
  exact incTotal_specIncList raw k

/-- C2 counterexample: `orderC2` lists sku A with quantity 3 under its
backordered line and quantity 5 under a shipped line; the aggregation
records 8 for A while the claim's backordered-only sum is 3. -/
theorem c2_counterexample_nonbackordered_lines_counted :
    (get_full_analytics (.ok [orderC2])).map (fun r => r.sku_frequency) =
        .ok [(Json.str "A", 8)] ∧
      backorderedOnlySum orderC2 (Json.str "A") = 3 := by
  constructor
  · decide
  · decide

/-- C2 witness: the theorem applied to `orderC2` at sku A, whose classifier
output and increment list evaluate to `oosC2` and `incsC2`; A is in the
backordered sku set and its all-lines sum is 8. -/
theorem c2_attribution_witness :
    get_stord_oos_skus orderC2 = .ok oosC2 ∧
    stordFreqIncrements oosC2 orderC2 = .ok incsC2 ∧
    incTotal incsC2 (Json.str "A") =
      (if (Json.str "A") ∈ backorderedSkuSet orderC2 then
        allLinesQuantitySum orderC2 (Json.str "A") else 0) :=
  ⟨rfl, rfl, c2_stord_quantity_attribution (Json.str "A") rfl rfl⟩

theorem pyfold_list_field_cont_spec {o : Json} {β γ : Type} (k : String)
    {step : β → Json → Except PyErr β} {g : β → Json → β} {init : β}
    {F : β → Except PyErr γ} {Gf : β → γ} {out : γ}
    (hstep : ∀ b x b2, step b x = .ok b2 → b2 = g b x)
    (hstr : ∀ (b : β) (s : String), step b (Json.str s) = .error .attributeError)
    (hcont : ∀ r out2, F r = .ok out2 → out2 = Gf r)
    (h : (do
        let v ← pyGetD o k (.arr [])
        let l ← pyIter v
        let r ← l.foldlM step init
        F r) = Except.ok out) :
    out = Gf ((jList (jGet o k)).foldl g init) := by
  cases o with
  | obj fs =>
      simp only [Except.instMonad, Except.bind, Bind.bind,
        show pyGetD (Json.obj fs) k (.arr []) =
          .ok (((Json.obj fs).lookup k).getD (.arr [])) from rfl] at h
      cases hlk : (Json.obj fs).lookup k with
      | none =>
          rw [hlk] at h
          rw [show pyIter (Option.getD none (Json.arr [])) =
            .ok ([] : List Json) from rfl] at h
          dsimp only at h
          rw [List.foldlM_nil] at h
          dsimp only [pure, Except.pure] at h
          have hspec : jList (jGet (Json.obj fs) k) = [] := by
            unfold jGet
            rw [hlk]
            rfl
          rw [hspec, List.foldl_nil]
          exact hcont init out h
      | some v =>
          rw [hlk] at h
          have hspec : jGet (Json.obj fs) k = v := by
            unfold jGet
            rw [hlk]
            rfl
          rw [hspec]
          dsimp only [Option.getD] at h
          cases v with
          | arr xs =>
              rw [show pyIter (Json.arr xs) = .ok xs from rfl] at h
              dsimp only at h
              cases hr : xs.foldlM step init with
              | error e =>
                  rw [hr] at h
                  dsimp only at h
                  exact absurd h (by simp)
              | ok r =>
                  rw [hr] at h
                  dsimp only at h
                  rw [show jList (Json.arr xs) = xs from rfl,
                    ← foldlM_ok_eq hstep xs init r hr]
                  exact hcont r out h
          | null =>
              rw [show pyIter Json.null =
                (.error .typeError : Except PyErr (List Json)) from rfl] at h
              dsimp only at h
              exact absurd h (by simp)
          | bool b =>
              rw [show pyIter (Json.bool b) =
                (.error .typeError : Except PyErr (List Json)) from rfl] at h
              dsimp only at h
              exact absurd h (by simp)
          | num q =>
              rw [show pyIter (Json.num q) =
                (.error .typeError : Except PyErr (List Json)) from rfl] at h
              dsimp only at h
              exact absurd h (by simp)
          | str s =>
              obtain ⟨cs⟩ := s
              cases cs with
              | nil =>
                  rw [show pyIter (Json.str (String.mk [])) =
                    .ok ([] : List Json) from rfl] at h
                  dsimp only at h
                  rw [List.foldlM_nil] at h
                  dsimp only [pure, Except.pure] at h
                  rw [show jList (Json.str (String.mk [])) = [] from rfl,
                    List.foldl_nil]
                  exact hcont init out h
              | cons c cs2 =>
                  rw [show pyIter (Json.str (String.mk (c :: cs2))) =
                    .ok (Json.str (String.mk [c]) ::
                      cs2.map (fun d => Json.str (String.mk [d]))) from rfl] at h
                  dsimp only at h
                  rw [foldlM_cons_error (hstr init (String.mk [c]))] at h
                  dsimp only at h
                  exact absurd h (by simp)
          | obj gs =>
              cases gs with
              | nil =>
                  rw [show pyIter (Json.obj []) =
                    .ok ([] : List Json) from rfl] at h
                  dsimp only at h
                  rw [List.foldlM_nil] at h
                  dsimp only [pure, Except.pure] at h
                  rw [show jList (Json.obj []) = [] from rfl, List.foldl_nil]
                  exact hcont init out h
              | cons p gs2 =>
                  rw [show pyIter (Json.obj (p :: gs2)) =
                    .ok (Json.str p.1 ::
                      gs2.map (fun q => Json.str q.1)) from rfl] at h
                  dsimp only at h
                  rw [foldlM_cons_error (hstr init p.1)] at h
                  dsimp only at h
                  exact absurd h (by simp)
  | null =>
      exact absurd h (by simp [pyGetD, Except.instMonad, Except.bind, Bind.bind])
  | bool b =>
      exact absurd h (by simp [pyGetD, Except.instMonad, Except.bind, Bind.bind])
  | num q =>
      exact absurd h (by simp [pyGetD, Except.instMonad, Except.bind, Bind.bind])
  | str s =>
      exact absurd h (by simp [pyGetD, Except.instMonad, Except.bind, Bind.bind])
  | arr xs =>
      exact absurd h (by simp [pyGetD, Except.instMonad, Except.bind, Bind.bind])

theorem shipbob_detail_step {d : Json} {ids ids2 : List Json}
    (h : (do
        let nm ← pyGet d "name"
        if nm = Json.str "OutOfStock" then do
          let inv ← pyGet d "inventory_id"
          if pyTruthy inv then pySetAdd ids inv else pure ids
        else pure ids) = Except.ok ids2) :
    ids2 =
      (if jGet d "name" = Json.str "OutOfStock" ∧
          pyTruthy (jGet d "inventory_id") = true ∧
          jGet d "inventory_id" ∉ ids
       then ids ++ [jGet d "inventory_id"] else ids) := by
  cases d with
  | obj fs =>
      simp only [Except.instMonad, Except.bind, Bind.bind,
        show pyGet (Json.obj fs) "name" =
          .ok (jGet (Json.obj fs) "name") from rfl,
        show pyGet (Json.obj fs) "inventory_id" =
          .ok (jGet (Json.obj fs) "inventory_id") from rfl] at h
      by_cases hnm : jGet (Json.obj fs) "name" = Json.str "OutOfStock"
      · rw [if_pos hnm] at h
        by_cases ht : pyTruthy (jGet (Json.obj fs) "inventory_id") = true
        · rw [if_pos ht] at h
          unfold pySetAdd at h
          by_cases hh : pyHashable (jGet (Json.obj fs) "inventory_id") = true
          · rw [if_pos hh] at h
            have hv := Except.ok.inj h
            by_cases hmem : jGet (Json.obj fs) "inventory_id" ∈ ids
            · rw [if_pos hmem] at hv
              rw [← hv, if_neg (by tauto)]
            · rw [if_neg hmem] at hv
              rw [← hv, if_pos ⟨hnm, ht, hmem⟩]
          · rw [if_neg hh] at h
            exact absurd h (by simp)
        · rw [if_neg ht] at h
          simp only [pure, Except.pure] at h
          rw [← Except.ok.inj h, if_neg (by tauto)]
      · rw [if_neg hnm] at h
        simp only [pure, Except.pure] at h
        rw [← Except.ok.inj h, if_neg (by tauto)]
  | null =>
      exact absurd h (by simp [pyGet, pyGetD, Except.instMonad, Except.bind,
        Bind.bind])
  | bool b =>
      exact absurd h (by simp [pyGet, pyGetD, Except.instMonad, Except.bind,
        Bind.bind])
  | num q =>
      exact absurd h (by simp [pyGet, pyGetD, Except.instMonad, Except.bind,
        Bind.bind])
  | str s =>
      exact absurd h (by simp [pyGet, pyGetD, Except.instMonad, Except.bind,
        Bind.bind])
  | arr xs =>
      exact absurd h (by simp [pyGet, pyGetD, Except.instMonad, Except.bind,
        Bind.bind])

theorem shipbobItemHit_spec {oosIds : List Json} :
    ∀ {items : List Json} {b : Bool},
      shipbobItemHit oosIds items = .ok b →
      b = items.any (fun item => decide (jGet item "id" ∈ oosIds)) := by
  intro items
  induction items with
  | nil =>
      intro b h
      rw [← Except.ok.inj (show Except.ok false = Except.ok b from h)]
      rfl
  | cons item rest ih =>
      intro b h
      cases item with
      | obj fs =>
          simp only [shipbobItemHit, Except.instMonad, Except.bind, Bind.bind,
            show pyGet (Json.obj fs) "id" =
              .ok (jGet (Json.obj fs) "id") from rfl] at h
          unfold pySetMem at h
          by_cases hh : pyHashable (jGet (Json.obj fs) "id") = true
          · rw [if_pos hh] at h
            dsimp only at h
            by_cases hm : jGet (Json.obj fs) "id" ∈ oosIds
            · rw [decide_eq_true hm, if_pos rfl] at h
              rw [← Except.ok.inj h, List.any_cons]
              simp [hm]
            · rw [decide_eq_false hm, if_neg (by simp)] at h
              rw [List.any_cons, ih h]
              simp [hm]
          · rw [if_neg hh] at h
            exact absurd h (by simp)
      | null =>
          exact absurd h (by simp [shipbobItemHit, pyGet, pyGetD,
            Except.instMonad, Except.bind, Bind.bind])
      | bool bb =>
          exact absurd h (by simp [shipbobItemHit, pyGet, pyGetD,
            Except.instMonad, Except.bind, Bind.bind])
      | num q =>
          exact absurd h (by simp [shipbobItemHit, pyGet, pyGetD,
            Except.instMonad, Except.bind, Bind.bind])
      | str s =>
          exact absurd h (by simp [shipbobItemHit, pyGet, pyGetD,
            Except.instMonad, Except.bind, Bind.bind])
      | arr xs =>
          exact absurd h (by simp [shipbobItemHit, pyGet, pyGetD,
            Except.instMonad, Except.bind, Bind.bind])

theorem shipbob_product_step {oosIds : List Json} {product : Json}
    {oos oos2 : List Json}
    (h : (do
        let sku ← pyGet product "sku"
        if pyTruthy sku then do
          let invItems ← pyGet product "inventory_items"
          if pyTruthy invItems then do
            let items ← pyIter invItems
            let hit ← shipbobItemHit oosIds items
            if hit then pySetAdd oos sku else pure oos
          else pure oos
        else pure oos) = Except.ok oos2) :
    oos2 =
      (if pyTruthy (jGet product "sku") = true ∧
          pyTruthy (jGet product "inventory_items") = true ∧
          ((jList (jGet product "inventory_items")).any
            (fun item => decide (jGet item "id" ∈ oosIds))) = true ∧
          jGet product "sku" ∉ oos
       then oos ++ [jGet product "sku"] else oos) := by
  cases product with
  | obj fs =>
      simp only [Except.instMonad, Except.bind, Bind.bind,
        show pyGet (Json.obj fs) "sku" =
          .ok (jGet (Json.obj fs) "sku") from rfl,
        show pyGet (Json.obj fs) "inventory_items" =
          .ok (jGet (Json.obj fs) "inventory_items") from rfl] at h
      by_cases hsk : pyTruthy (jGet (Json.obj fs) "sku") = true
      · rw [if_pos hsk] at h
        by_cases hti : pyTruthy (jGet (Json.obj fs) "inventory_items") = true
        · rw [if_pos hti] at h
          cases hv : jGet (Json.obj fs) "inventory_items" with
          | arr xs =>
              rw [hv] at h
              rw [show pyIter (Json.arr xs) = .ok xs from rfl] at h
              dsimp only at h
              cases hhit : shipbobItemHit oosIds xs with
              | error e =>
                  rw [hhit] at h
                  dsimp only at h
                  exact absurd h (by simp)
              | ok b =>
                  rw [hhit] at h
                  dsimp only at h
                  rw [shipbobItemHit_spec hhit] at h
                  rw [show jList (Json.arr xs) = xs from rfl]
                  by_cases hany :
                      (xs.any (fun item => decide (jGet item "id" ∈ oosIds))) = true
                  · rw [if_pos hany] at h
                    unfold pySetAdd at h
                    by_cases hh : pyHashable (jGet (Json.obj fs) "sku") = true
                    · rw [if_pos hh] at h
                      have hval := Except.ok.inj h
                      by_cases hmem : jGet (Json.obj fs) "sku" ∈ oos
                      · rw [if_pos hmem] at hval
                        rw [← hval, if_neg (by tauto)]
                      · rw [if_neg hmem] at hval
                        rw [← hval, if_pos ⟨hsk, hv ▸ hti, hany, hmem⟩]
                    · rw [if_neg hh] at h
                      exact absurd h (by simp)
                  · rw [if_neg hany] at h
                    simp only [pure, Except.pure] at h
                    rw [← Except.ok.inj h, if_neg (by tauto)]
          | null =>
              rw [hv] at hti
              exact absurd hti (by decide)
          | bool bb =>
              rw [hv] at h
              rw [show pyIter (Json.bool bb) =
                (.error .typeError : Except PyErr (List Json)) from rfl] at h
              dsimp only at h
              exact absurd h (by simp)
          | num q =>
              rw [hv] at h
              rw [show pyIter (Json.num q) =
                (.error .typeError : Except PyErr (List Json)) from rfl] at h
              dsimp only at h
              exact absurd h (by simp)
          | str s =>
              obtain ⟨cs⟩ := s
              cases cs with
              | nil =>
                  rw [hv] at hti
                  exact absurd hti (by decide)
              | cons c cs2 =>
                  rw [hv] at h
                  rw [show pyIter (Json.str (String.mk (c :: cs2))) =
                    .ok (Json.str (String.mk [c]) ::
                      cs2.map (fun d => Json.str (String.mk [d]))) from rfl] at h
                  dsimp only at h
                  rw [show shipbobItemHit oosIds (Json.str (String.mk [c]) ::
                    cs2.map (fun d => Json.str (String.mk [d]))) =
                    .error .attributeError from rfl] at h
                  dsimp only at h
                  exact absurd h (by simp)
          | obj gs =>
              cases gs with
              | nil =>
                  rw [hv] at hti
                  exact absurd hti (by decide)
              | cons p gs2 =>
                  rw [hv] at h
                  rw [show pyIter (Json.obj (p :: gs2)) =
                    .ok (Json.str p.1 ::
                      gs2.map (fun q => Json.str q.1)) from rfl] at h
                  dsimp only at h
                  rw [show shipbobItemHit oosIds (Json.str p.1 ::
                    gs2.map (fun q => Json.str q.1)) =
                    .error .attributeError from rfl] at h
                  dsimp only at h
                  exact absurd h (by simp)
        · rw [if_neg hti] at h
          simp only [pure, Except.pure] at h
          rw [← Except.ok.inj h, if_neg (by tauto)]
      · rw [if_neg hsk] at h
        simp only [pure, Except.pure] at h
        rw [← Except.ok.inj h, if_neg (by tauto)]
  | null =>
      exact absurd h (by simp [pyGet, pyGetD, Except.instMonad, Except.bind,
        Bind.bind])
  | bool b =>
      exact absurd h (by simp [pyGet, pyGetD, Except.instMonad, Except.bind,
        Bind.bind])
  | num q =>
      exact absurd h (by simp [pyGet, pyGetD, Except.instMonad, Except.bind,
        Bind.bind])
  | str s =>
      exact absurd h (by simp [pyGet, pyGetD, Except.instMonad, Except.bind,
        Bind.bind])
  | arr xs =>
      exact absurd h (by simp [pyGet, pyGetD, Except.instMonad, Except.bind,
        Bind.bind])

theorem shipbob_shipment_step {sh : Json} {oos oos2 : List Json}
    (h : (do
        let details ← pyGetD sh "status_details" (.arr [])
        let detailList ← pyIter details
        let oosIds ← shipbobOosInvIds detailList
        if oosIds.isEmpty then pure oos
        else do
          let products ← pyGetD sh "products" (.arr [])
          let productList ← pyIter products
          shipbobProductsScan oosIds productList oos) = Except.ok oos2) :
    oos2 =
      (let oosIds := (jList (jGet sh "status_details")).foldl
        (fun ids d =>
          if jGet d "name" = Json.str "OutOfStock" ∧
              pyTruthy (jGet d "inventory_id") = true ∧
              jGet d "inventory_id" ∉ ids
          then ids ++ [jGet d "inventory_id"] else ids)
        []
      if oosIds.isEmpty then oos
      else
        (jList (jGet sh "products")).foldl
          (fun oos p =>
            if pyTruthy (jGet p "sku") = true ∧
                pyTruthy (jGet p "inventory_items") = true ∧
                ((jList (jGet p "inventory_items")).any
                  (fun item => decide (jGet item "id" ∈ oosIds))) = true ∧
                jGet p "sku" ∉ oos
            then oos ++ [jGet p "sku"] else oos)
          oos) := by
  show oos2 =
    (fun oosIds =>
      if oosIds.isEmpty = true then oos
      else
        (jList (jGet sh "products")).foldl
          (fun oos p =>
            if pyTruthy (jGet p "sku") = true ∧
                pyTruthy (jGet p "inventory_items") = true ∧
                ((jList (jGet p "inventory_items")).any
                  (fun item => decide (jGet item "id" ∈ oosIds))) = true ∧
                jGet p "sku" ∉ oos
            then oos ++ [jGet p "sku"] else oos)
          oos)
      ((jList (jGet sh "status_details")).foldl
        (fun ids d =>
          if jGet d "name" = Json.str "OutOfStock" ∧
              pyTruthy (jGet d "inventory_id") = true ∧
              jGet d "inventory_id" ∉ ids
          then ids ++ [jGet d "inventory_id"] else ids)
        [])
  refine @pyfold_list_field_cont_spec sh (List Json) (List Json)
    "status_details" _ _ [] _
    (fun oosIds =>
      if oosIds.isEmpty = true then oos
      else
        (jList (jGet sh "products")).foldl
          (fun oos p =>
            if pyTruthy (jGet p "sku") = true ∧
                pyTruthy (jGet p "inventory_items") = true ∧
                ((jList (jGet p "inventory_items")).any
                  (fun item => decide (jGet item "id" ∈ oosIds))) = true ∧
                jGet p "sku" ∉ oos
            then oos ++ [jGet p "sku"] else oos)
          oos)
    oos2 ?_ ?_ ?_ h
  · exact fun b x b2 hx => shipbob_detail_step hx
  · intro b s
    rfl
  · intro r out2 hF
    dsimp only
    by_cases he : r.isEmpty = true
    · rw [if_pos he] at hF ⊢
      simp only [pure, Except.pure] at hF
      exact (Except.ok.inj hF).symm
    · rw [if_neg he] at hF ⊢
      refine pyfold_list_field_spec "products"
        (fun b x b2 hx => shipbob_product_step hx) ?_ hF
      intro b s
      rfl

theorem shipbob_classifier_spec {raw : Json} {out : List Json}
    (h : get_shipbob_oos_skus raw = .ok out) :
    out = specShipbobList raw := by
  unfold get_shipbob_oos_skus at h
  unfold specShipbobList
  exact pyfold_list_field_spec "shipments"
    (fun b x b2 hx => shipbob_shipment_step hx) (fun b s => rfl) h

theorem foldl_mem_step {α β : Type} (f : List α → β → List α) (P : β → α → Prop)
    (hf : ∀ acc x k, k ∈ f acc x ↔ k ∈ acc ∨ P x k) :
    ∀ (l : List β) (acc : List α) (k : α),
      k ∈ l.foldl f acc ↔ k ∈ acc ∨ ∃ x ∈ l, P x k := by
  intro l
  induction l with
  | nil =>
      intro acc k
      simp
  | cons x t ih =>
      intro acc k
      rw [List.foldl_cons, ih, hf]
      constructor
      · rintro ((h | h) | ⟨y, hy, hP⟩)
        · exact Or.inl h
        · exact Or.inr ⟨x, by simp, h⟩
        · exact Or.inr ⟨y, by simp [hy], hP⟩
      · rintro (h | ⟨y, hy, hP⟩)
        · exact Or.inl (Or.inl h)
        · rcases List.mem_cons.mp hy with h1 | h1
          · exact Or.inl (Or.inr (h1 ▸ hP))
          · exact Or.inr ⟨y, h1, hP⟩

theorem foldl_nodup_preserving {α β : Type} (f : List α → β → List α)
    (hf : ∀ acc x, acc.Nodup → (f acc x).Nodup) :
    ∀ (l : List β) (acc : List α), acc.Nodup → (l.foldl f acc).Nodup := by
  intro l
  induction l with
  | nil =>
      intro acc h
      exact h
  | cons x t ih =>
      intro acc h
      exact ih _ (hf _ _ h)

theorem nodup_append_one {α : Type} {l : List α} {a : α}
    (h : l.Nodup) (ha : a ∉ l) : (l ++ [a]).Nodup := by
  rw [List.nodup_append]
  exact ⟨h, List.nodup_singleton a,
    fun x hx hxa => ha (by rwa [List.mem_singleton.mp hxa] at hx)⟩

theorem pyTruthy_of_mem_jList {v x : Json} (h : x ∈ jList v) :
    pyTruthy v = true := by
  cases v with
  | arr xs =>
      have : xs ≠ [] := List.ne_nil_of_mem h
      simp [pyTruthy, this]
  | null => exact absurd h (by simp [jList])
  | bool b => exact absurd h (by simp [jList])
  | num q => exact absurd h (by simp [jList])
  | str s => exact absurd h (by simp [jList])
  | obj fs => exact absurd h (by simp [jList])

theorem detail_fold_mem (details : List Json) (k : Json) :
    k ∈ details.foldl
        (fun ids d =>
          if jGet d "name" = Json.str "OutOfStock" ∧
              pyTruthy (jGet d "inventory_id") = true ∧
              jGet d "inventory_id" ∉ ids
          then ids ++ [jGet d "inventory_id"] else ids)
        [] ↔
      ∃ d ∈ details, jGet d "name" = Json.str "OutOfStock" ∧
        pyTruthy (jGet d "inventory_id") = true ∧
        jGet d "inventory_id" = k := by
  refine (foldl_mem_step _
    (fun d k => jGet d "name" = Json.str "OutOfStock" ∧
      pyTruthy (jGet d "inventory_id") = true ∧ jGet d "inventory_id" = k)
    ?_ details [] k).trans (by simp)
  intro acc d kk
  by_cases hc : jGet d "name" = Json.str "OutOfStock" ∧
      pyTruthy (jGet d "inventory_id") = true ∧ jGet d "inventory_id" ∉ acc
  · rw [if_pos hc, List.mem_append, List.mem_singleton]
    constructor
    · rintro (h | rfl)
      · exact Or.inl h
      · exact Or.inr ⟨hc.1, hc.2.1, rfl⟩
    · rintro (h | ⟨-, -, rfl⟩)
      · exact Or.inl h
      · exact Or.inr rfl
  · rw [if_neg hc]
    constructor
    · exact Or.inl
    · rintro (h | ⟨h1, h2, rfl⟩)
      · exact h
      · exact not_not.mp (fun hn => hc ⟨h1, h2, hn⟩)

theorem product_fold_mem (oosIds products oos : List Json) (k : Json) :
    k ∈ products.foldl
        (fun oos p =>
          if pyTruthy (jGet p "sku") = true ∧
              pyTruthy (jGet p "inventory_items") = true ∧
              ((jList (jGet p "inventory_items")).any
                (fun item => decide (jGet item "id" ∈ oosIds))) = true ∧
              jGet p "sku" ∉ oos
          then oos ++ [jGet p "sku"] else oos)
        oos ↔
      k ∈ oos ∨ ∃ p ∈ products, pyTruthy (jGet p "sku") = true ∧
        pyTruthy (jGet p "inventory_items") = true ∧
        ((jList (jGet p "inventory_items")).any
          (fun item => decide (jGet item "id" ∈ oosIds))) = true ∧
        jGet p "sku" = k := by
  refine foldl_mem_step _
    (fun p k => pyTruthy (jGet p "sku") = true ∧
      pyTruthy (jGet p "inventory_items") = true ∧
      ((jList (jGet p "inventory_items")).any
        (fun item => decide (jGet item "id" ∈ oosIds))) = true ∧
      jGet p "sku" = k)
    ?_ products oos k
  intro acc p kk
  by_cases hc : pyTruthy (jGet p "sku") = true ∧
      pyTruthy (jGet p "inventory_items") = true ∧
      ((jList (jGet p "inventory_items")).any
        (fun item => decide (jGet item "id" ∈ oosIds))) = true ∧
      jGet p "sku" ∉ acc
  · rw [if_pos hc, List.mem_append, List.mem_singleton]
    constructor
    · rintro (h | rfl)
      · exact Or.inl h
      · exact Or.inr ⟨hc.1, hc.2.1, hc.2.2.1, rfl⟩
    · rintro (h | ⟨-, -, -, rfl⟩)
      · exact Or.inl h
      · exact Or.inr rfl
  · rw [if_neg hc]
    constructor
    · exact Or.inl
    · rintro (h | ⟨h1, h2, h3, rfl⟩)
      · exact h
      · exact not_not.mp (fun hn => hc ⟨h1, h2, h3, hn⟩)

theorem specShipbobList_mem (raw : Json) (k : Json) :
    k ∈ specShipbobList raw ↔
      ∃ sh ∈ jList (jGet raw "shipments"),
        ∃ p ∈ jList (jGet sh "products"),
          pyTruthy (jGet p "sku") = true ∧
          pyTruthy (jGet p "inventory_items") = true ∧
          ((jList (jGet p "inventory_items")).any
            (fun item => decide (jGet item "id" ∈
              (jList (jGet sh "status_details")).foldl
                (fun ids d =>
                  if jGet d "name" = Json.str "OutOfStock" ∧
                      pyTruthy (jGet d "inventory_id") = true ∧
                      jGet d "inventory_id" ∉ ids
                  then ids ++ [jGet d "inventory_id"] else ids)
                []))) = true ∧
          jGet p "sku" = k := by
  unfold specShipbobList
  refine (foldl_mem_step _
    (fun sh k =>
      ∃ p ∈ jList (jGet sh "products"),
        pyTruthy (jGet p "sku") = true ∧
        pyTruthy (jGet p "inventory_items") = true ∧
        ((jList (jGet p "inventory_items")).any
          (fun item => decide (jGet item "id" ∈
            (jList (jGet sh "status_details")).foldl
              (fun ids d =>
                if jGet d "name" = Json.str "OutOfStock" ∧
                    pyTruthy (jGet d "inventory_id") = true ∧
                    jGet d "inventory_id" ∉ ids
                then ids ++ [jGet d "inventory_id"] else ids)
              []))) = true ∧
        jGet p "sku" = k)
    ?_ _ [] k).trans (by simp)
  intro acc sh kk
  dsimp only
  by_cases he : ((jList (jGet sh "status_details")).foldl
      (fun ids d =>
        if jGet d "name" = Json.str "OutOfStock" ∧
            pyTruthy (jGet d "inventory_id") = true ∧
            jGet d "inventory_id" ∉ ids
        then ids ++ [jGet d "inventory_id"] else ids)
      []).isEmpty = true
  · rw [if_pos he]
    constructor
    · exact Or.inl
    · rintro (h | ⟨p, hp, h1, h2, h3, rfl⟩)
      · exact h
      · exfalso
        rcases List.any_eq_true.mp h3 with ⟨item, hitem, hdec⟩
        have hmem := of_decide_eq_true hdec
        rw [List.isEmpty_iff] at he
        rw [he] at hmem
        exact absurd hmem (List.not_mem_nil _)
  · rw [if_neg he]
    exact product_fold_mem _ _ acc kk

theorem specShipbobList_nodup (raw : Json) : (specShipbobList raw).Nodup := by
  unfold specShipbobList
  refine foldl_nodup_preserving _ ?_ _ [] List.nodup_nil
  intro acc sh hacc
  dsimp only
  by_cases he : ((jList (jGet sh "status_details")).foldl
      (fun ids d =>
        if jGet d "name" = Json.str "OutOfStock" ∧
            pyTruthy (jGet d "inventory_id") = true ∧
            jGet d "inventory_id" ∉ ids
        then ids ++ [jGet d "inventory_id"] else ids)
      []).isEmpty = true
  · rw [if_pos he]
    exact hacc
  · rw [if_neg he]
    refine foldl_nodup_preserving _ ?_ _ acc hacc
    intro acc2 p h2
    by_cases hc : pyTruthy (jGet p "sku") = true ∧
        pyTruthy (jGet p "inventory_items") = true ∧
        ((jList (jGet p "inventory_items")).any
          (fun item => decide (jGet item "id" ∈
            (jList (jGet sh "status_details")).foldl
              (fun ids d =>
                if jGet d "name" = Json.str "OutOfStock" ∧
                    pyTruthy (jGet d "inventory_id") = true ∧
                    jGet d "inventory_id" ∉ ids
                then ids ++ [jGet d "inventory_id"] else ids)
              []))) = true ∧
        jGet p "sku" ∉ acc2
    · rw [if_pos hc]
      exact nodup_append_one h2 hc.2.2.2
    · rw [if_neg hc]
      exact h2

theorem specShipbobList_mem_specOOS (raw : Json) (k : Json) :
    (k ∈ specShipbobList raw) ↔ shipbobSpecOOS raw k = true := by
  rw [specShipbobList_mem]
  unfold shipbobSpecOOS
  simp only [Bool.and_eq_true, List.any_eq_true, decide_eq_true_eq]
  constructor
  · rintro ⟨sh, hsh, p, hp, h1, h2, ⟨item, hitem, hmem⟩, rfl⟩
    rcases (detail_fold_mem _ _).mp hmem with ⟨d, hd, hn1, hn2, hn3⟩
    exact ⟨h1, sh, hsh, p, hp, rfl, item, hitem, d, hd, ⟨hn1, hn2⟩, hn3⟩
  · rintro ⟨hk, sh, hsh, p, hp, hsku, item, hitem, d, hd, ⟨hn1, hn2⟩, hn3⟩
    refine ⟨sh, hsh, p, hp, ?_, ?_, ?_, hsku⟩
    · rw [hsku]
      exact hk
    · exact pyTruthy_of_mem_jList hitem
    · exact ⟨item, hitem, (detail_fold_mem _ _).mpr ⟨d, hd, hn1, hn2, hn3⟩⟩

/-- C5: corrected shipbob classifier characterization.  For any raw order
the classifier accepts, the returned value is duplicate-free and a sku is a
member exactly when some shipment pairs a product carrying that sku (truthy)
with a status detail named `OutOfStock` whose `inventory_id` is truthy and
equals the `id` of one of the product's inventory items; the claim's version
without the two truthiness conditions is false, since the comprehension at
lines 18-22 drops falsy inventory ids (and line 29 drops falsy skus). -/
theorem c5_shipbob_oos_membership {raw : Json} {out : List Json}
    (h : get_shipbob_oos_skus raw = .ok out) (k : Json) :
    out.Nodup ∧ (k ∈ out ↔ shipbobSpecOOS raw k = true) := by
  rw [shipbob_classifier_spec h]
  exact ⟨specShipbobList_nodup raw, specShipbobList_mem_specOOS raw k⟩

/-- C5 counterexample: in `orderC5` the only status detail is named
`OutOfStock` with `inventory_id` 0 and the product `P` has an inventory item
with id 0; the ids match, so the claim counts sku `P` as OOS, but 0 is
falsy, the comprehension guard drops it and the classifier returns the
empty set. -/
theorem c5_counterexample_falsy_inventory_id :
    get_shipbob_oos_skus orderC5 = .ok [] ∧
      shipbobClaimOOS orderC5 (Json.str "P") = true := by
  constructor
  · rfl
  · decide

/-- C5 witness: the theorem applied to `orderC5good`, whose classifier run
returns exactly `[P1]`: the output is duplicate-free and membership of `P1`
matches the truthiness-amended predicate. -/
theorem c5_oos_witness :
    get_shipbob_oos_skus orderC5good = .ok [Json.str "P1"] ∧
    ([Json.str "P1"] : List Json).Nodup ∧
    ((Json.str "P1") ∈ ([Json.str "P1"] : List Json) ↔
      shipbobSpecOOS orderC5good (Json.str "P1") = true) :=
  ⟨rfl,
    (@c5_shipbob_oos_membership orderC5good [Json.str "P1"] rfl
      (Json.str "P1")).1,
    (@c5_shipbob_oos_membership orderC5good [Json.str "P1"] rfl
      (Json.str "P1")).2⟩

end OOS
